import Mathlib

/-!
Shallow embedding of the fluid dynamics engine in `src/pumpkin/src/world/fluid.rs`
(struct `FluidManager` and its methods), together with theorems checking the
natural-language specification against it.

Modelling conventions:
* `u16` state ids and the `u32` tick counter are `Nat` (with `% 2^32` where the
  Rust code wraps); `i32` levels, weights and priorities are `Int`.
* The external `World` collaborator (asynchronous block-state reads/writes) is a
  map from positions to state ids plus a registry of `air`/`replaceable`
  flags per state id; a `none` read models the `Err` case of
  `get_block_state_id`/`get_block_state`.
* Stateful methods are explicit state-passing functions on a record holding the
  world, the manager state, and a trace of the effects performed
  (immediate world writes, batched writes, and `schedule_update` calls);
  the two unbounded searches (`has_source_connection`'s DFS and
  `find_path_downward`'s BFS) take explicit fuel.
-/

/-- Block position, mirroring `BlockPos` (integer world coordinates). -/
structure BlockPos where
  x : Int
  y : Int
  z : Int
deriving DecidableEq

/-- Modelled from the spec: the Topology collaborator's six axis-aligned
neighbor directions (`BlockDirection` lives outside `src/`). -/
inductive BlockDirection where
  | Up
  | Down
  | North
  | South
  | West
  | East
deriving DecidableEq

/-- Modelled from the spec: `offset(pos, direction)` of the Topology
collaborator (`BlockPos::offset` with `BlockDirection::to_offset`). -/
def offsetPos (p : BlockPos) : BlockDirection → BlockPos
  | .Up => ⟨p.x, p.y + 1, p.z⟩
  | .Down => ⟨p.x, p.y - 1, p.z⟩
  | .North => ⟨p.x, p.y, p.z - 1⟩
  | .South => ⟨p.x, p.y, p.z + 1⟩
  | .West => ⟨p.x - 1, p.y, p.z⟩
  | .East => ⟨p.x + 1, p.y, p.z⟩

/-- Modelled from the spec: `opposite(direction)` of the Topology collaborator. -/
def oppositeDir : BlockDirection → BlockDirection
  | .Up => .Down
  | .Down => .Up
  | .North => .South
  | .South => .North
  | .West => .East
  | .East => .West

/-- Modelled from the spec: the Topology collaborator's enumeration of the four
horizontal directions (`BlockDirection::horizontal()`), in the order the
`calculate_flow_weights` array in the source lists them. -/
def horizontalDirections : List BlockDirection := [.North, .South, .West, .East]

/-- Modelled from the spec: the Topology collaborator's enumeration of all six
directions (`BlockDirection::all()`). -/
def allDirections : List BlockDirection :=
  [.Down, .Up, .North, .South, .West, .East]

/-- Modelled from the spec: the World collaborator. `stateId` is the fallible
position-to-state-id map read by `get_block_state_id` (`none` = the `Err`
case); `airFlag`/`replFlag` are the per-state-id `air`/`replaceable` flags
that `get_block_state` exposes (the block registry is outside `src/`, so the
flags are an unconstrained function of the state id). -/
structure FluidWorld where
  stateId : BlockPos → Option Nat
  airFlag : Nat → Bool
  replFlag : Nat → Bool

/-- Embeds `World::set_block_state`: point update of the state map. -/
def setBlockState (w : FluidWorld) (p : BlockPos) (s : Nat) : FluidWorld :=
  { w with stateId := fun q => if q = p then some s else w.stateId q }

/-- The `air || replaceable` test the source applies to a `get_block_state`
read, with a failed read counting as not passable (the code's `if let Ok`
pattern). -/
def passableAt (w : FluidWorld) (p : BlockPos) : Bool :=
  match w.stateId p with
  | some s => w.airFlag s || w.replFlag s
  | none => false

-- Water block state IDs (constants of `fluid.rs`).
def WATER_SOURCE_STATE_ID : Nat := 86
def WATER_LEVEL_1_STATE_ID : Nat := 93
def WATER_LEVEL_2_STATE_ID : Nat := 92
def WATER_LEVEL_3_STATE_ID : Nat := 91
def WATER_LEVEL_4_STATE_ID : Nat := 90
def WATER_LEVEL_5_STATE_ID : Nat := 89
def WATER_LEVEL_6_STATE_ID : Nat := 88
def WATER_LEVEL_7_STATE_ID : Nat := 87

def HORIZONTAL_MAX_FLOW_DISTANCE : Int := 7
def FLUID_TICK_RATE : Nat := 5
def MAX_DOWNWARD_PATH_DISTANCE : Int := 4
def DEFAULT_FLOW_WEIGHT : Int := 1000
def MAX_UPDATES_PER_TICK : Nat := 256

/-- Constant `2^32`, the modulus of the wrapping `u32` tick arithmetic. -/
def U32MOD : Nat := 4294967296

/-- Embeds `FluidManager::is_water`. -/
def is_water (state_id : Nat) : Bool :=
  state_id = WATER_SOURCE_STATE_ID ||
  state_id = WATER_LEVEL_1_STATE_ID ||
  state_id = WATER_LEVEL_2_STATE_ID ||
  state_id = WATER_LEVEL_3_STATE_ID ||
  state_id = WATER_LEVEL_4_STATE_ID ||
  state_id = WATER_LEVEL_5_STATE_ID ||
  state_id = WATER_LEVEL_6_STATE_ID ||
  state_id = WATER_LEVEL_7_STATE_ID

/-- Embeds `FluidManager::is_source_block`. -/
def is_source_block (state_id : Nat) : Bool :=
  state_id = WATER_SOURCE_STATE_ID

/-- Embeds `FluidManager::get_water_level`. -/
def get_water_level (state_id : Nat) : Int :=
  if state_id = WATER_SOURCE_STATE_ID then 8
  else if state_id = WATER_LEVEL_7_STATE_ID then 7
  else if state_id = WATER_LEVEL_6_STATE_ID then 6
  else if state_id = WATER_LEVEL_5_STATE_ID then 5
  else if state_id = WATER_LEVEL_4_STATE_ID then 4
  else if state_id = WATER_LEVEL_3_STATE_ID then 3
  else if state_id = WATER_LEVEL_2_STATE_ID then 2
  else if state_id = WATER_LEVEL_1_STATE_ID then 1
  else 0

/-- Embeds `FluidManager::get_state_id_for_level`. -/
def get_state_id_for_level (level : Int) : Nat :=
  if level = 8 then WATER_SOURCE_STATE_ID
  else if level = 7 then WATER_LEVEL_7_STATE_ID
  else if level = 6 then WATER_LEVEL_6_STATE_ID
  else if level = 5 then WATER_LEVEL_5_STATE_ID
  else if level = 4 then WATER_LEVEL_4_STATE_ID
  else if level = 3 then WATER_LEVEL_3_STATE_ID
  else if level = 2 then WATER_LEVEL_2_STATE_ID
  else if level = 1 then WATER_LEVEL_1_STATE_ID
  else 0

/-- A pending update, mirroring `struct FluidUpdate`. -/
structure FluidUpdate where
  position : BlockPos
  fluid_state_id : Nat
  tick_scheduled : Nat
  priority : Int
deriving DecidableEq

/-- Manager state, mirroring `struct FluidManager`. The `HashMap` of pending
updates is an association list keyed by position (iteration order of the
`HashMap` is unspecified in the source; the list order is one admissible
order), `batch_updates` is the batch buffer in push order. -/
structure FluidManager where
  pending : List (BlockPos × FluidUpdate)
  current_tick : Nat
  batch : List (BlockPos × Nat)
deriving DecidableEq

/-- One observable effect of resolving updates: an immediate
`world.set_block_state` call, a `batch_updates.push`, or a
`schedule_update(position, state, delay, priority)` call. -/
inductive Ev where
  | writeNow (p : BlockPos) (s : Nat)
  | writeBatch (p : BlockPos) (s : Nat)
  | sched (p : BlockPos) (s : Nat) (delay : Nat) (prio : Int)
deriving DecidableEq

/-- State threaded through the resolver: current world, manager state, and the
trace of effects performed so far. -/
structure Res where
  world : FluidWorld
  mgr : FluidManager
  events : List Ev

/-- First-match lookup in the pending association list (the `HashMap::get`). -/
def lookupPos : List (BlockPos × FluidUpdate) → BlockPos → Option FluidUpdate
  | [], _ => none
  | (k, v) :: rest, p => if k = p then some v else lookupPos rest p

/-- Replace the binding of an existing key (the `HashMap::insert` on a present
key, preserving the entry's place in the iteration order). -/
def replacePos : List (BlockPos × FluidUpdate) → BlockPos → FluidUpdate →
    List (BlockPos × FluidUpdate)
  | [], _, _ => []
  | (k, v) :: rest, p, u =>
      if k = p then (k, u) :: rest else (k, v) :: replacePos rest p u

/-- Embeds `FluidManager::schedule_update`. -/
def schedule_update (m : FluidManager) (position : BlockPos)
    (fluid_state_id : Nat) (delay : Nat) (priority : Int) : FluidManager :=
  if fluid_state_id ≠ 0 ∧ is_water fluid_state_id = false then m
  else
    let scheduled_tick := (m.current_tick + (FLUID_TICK_RATE + delay)) % U32MOD
    let upd : FluidUpdate := ⟨position, fluid_state_id, scheduled_tick, priority⟩
    match lookupPos m.pending position with
    | some existing =>
        if existing.tick_scheduled < scheduled_tick ∨
           (existing.tick_scheduled = scheduled_tick ∧ priority ≤ existing.priority)
        then m
        else { m with pending := replacePos m.pending position upd }
    | none => { m with pending := m.pending ++ [(position, upd)] }

/-- Immediate `world.set_block_state` during resolution (logged as `writeNow`). -/
def emitNow (r : Res) (p : BlockPos) (s : Nat) : Res :=
  { r with world := setBlockState r.world p s, events := r.events ++ [Ev.writeNow p s] }

/-- Embeds `self.batch_updates.push((p, s))` (logged as `writeBatch`). -/
def emitBatch (r : Res) (p : BlockPos) (s : Nat) : Res :=
  { r with mgr := { r.mgr with batch := r.mgr.batch ++ [(p, s)] },
           events := r.events ++ [Ev.writeBatch p s] }

/-- A `self.schedule_update(p, s, delay, prio)` call (logged as `sched`). -/
def emitSched (r : Res) (p : BlockPos) (s : Nat) (delay : Nat) (prio : Int) : Res :=
  { r with mgr := schedule_update r.mgr p s delay prio,
           events := r.events ++ [Ev.sched p s delay prio] }

/-- Seeding loop of `has_source_connection`'s DFS (fluid.rs lines 571-588):
push horizontally-adjacent water cells of strictly greater level. The stack is
LIFO (`Vec::push`/`Vec::pop`), modelled with cons/head. -/
def dfsSeedH (w : FluidWorld) (position : BlockPos) (currentLevel : Int) :
    List BlockDirection → List BlockPos → List BlockPos →
    List BlockPos × List BlockPos
  | [], st, vis => (st, vis)
  | d :: rest, st, vis =>
      let nextPos := offsetPos position d
      if nextPos ∈ vis then dfsSeedH w position currentLevel rest st vis
      else
        match w.stateId nextPos with
        | some nid =>
            if is_water nid ∧ currentLevel < get_water_level nid then
              dfsSeedH w position currentLevel rest (nextPos :: st) (nextPos :: vis)
            else dfsSeedH w position currentLevel rest st vis
        | none => dfsSeedH w position currentLevel rest st vis

/-- Horizontal expansion step of the DFS main loop (fluid.rs lines 611-634):
returns `none` when a source is found among the horizontal neighbors
(the early `return true`), otherwise the updated stack and visited set. -/
def dfsExpandH (w : FluidWorld) (currentPos : BlockPos) (posLevel : Int) :
    List BlockDirection → List BlockPos → List BlockPos →
    Option (List BlockPos × List BlockPos)
  | [], st, vis => some (st, vis)
  | d :: rest, st, vis =>
      let nextPos := offsetPos currentPos d
      if nextPos ∈ vis then dfsExpandH w currentPos posLevel rest st vis
      else
        match w.stateId nextPos with
        | some nid =>
            if is_source_block nid then none
            else if is_water nid ∧ posLevel < get_water_level nid then
              dfsExpandH w currentPos posLevel rest (nextPos :: st) (nextPos :: vis)
            else dfsExpandH w currentPos posLevel rest st vis
        | none => dfsExpandH w currentPos posLevel rest st vis

/-- Main DFS loop of `has_source_connection` (fluid.rs lines 600-651),
with explicit fuel (the Rust loop terminates only because real worlds are
finite). -/
def sourceDfs (w : FluidWorld) : Nat → List BlockPos → List BlockPos → Bool
  | 0, _, _ => false
  | _ + 1, [], _ => false
  | fuel + 1, currentPos :: stackRest, visited =>
      match w.stateId currentPos with
      | none => sourceDfs w fuel stackRest visited
      | some sid =>
          if is_source_block sid then true
          else
            let posLevel := get_water_level sid
            match dfsExpandH w currentPos posLevel horizontalDirections stackRest visited with
            | none => true
            | some (st1, vis1) =>
                let abovePos := offsetPos currentPos BlockDirection.Up
                if abovePos ∈ vis1 then sourceDfs w fuel st1 vis1
                else
                  match w.stateId abovePos with
                  | some aid =>
                      if is_source_block aid then true
                      else if is_water aid then
                        sourceDfs w fuel (abovePos :: st1) (abovePos :: vis1)
                      else sourceDfs w fuel st1 vis1
                  | none => sourceDfs w fuel st1 vis1

/-- The seeded DFS shared by the code's `has_source_connection` and the spec's
description of it: seed from `position` at `currentLevel` (horizontal
strictly-greater-level water neighbors, then the above neighbor when it is
water, fluid.rs lines 564-597), then run the main loop. -/
def sourceSearchFrom (fuel : Nat) (w : FluidWorld) (position : BlockPos)
    (currentLevel : Int) : Bool :=
  let seeded := dfsSeedH w position currentLevel horizontalDirections [] [position]
  let abovePos := offsetPos position BlockDirection.Up
  let seeded2 :=
    match w.stateId abovePos with
    | some aid =>
        if is_water aid then (abovePos :: seeded.1, abovePos :: seeded.2) else seeded
    | none => seeded
  sourceDfs w fuel seeded2.1 seeded2.2

/-- The quick adjacent-source scan of `has_source_connection`
(fluid.rs lines 550-557). -/
def anyAdjacentSource (w : FluidWorld) (position : BlockPos) : Bool :=
  allDirections.any fun d =>
    match w.stateId (offsetPos position d) with
    | some a => is_source_block a
    | none => false

/-- Embeds `FluidManager::has_source_connection` (fluid.rs lines 534-654). -/
def has_source_connection (fuel : Nat) (w : FluidWorld) (position : BlockPos) : Bool :=
  match w.stateId position with
  | none => false
  | some current_state_id =>
      if is_source_block current_state_id then true
      else
        let current_level := get_water_level current_state_id
        if anyAdjacentSource w position then true
        else if current_level = 7 then false
        else sourceSearchFrom fuel w position current_level

/-- Modelled from the spec: §4.4's description of `has_source_connection` —
true if the cell or one of its six neighbors is a source, otherwise the result
of the depth-first search (same seeding and expansion as the code), with no
special case for level-7 cells. Used to compare the spec's words with the
code. -/
def specHasSourceConnection (fuel : Nat) (w : FluidWorld) (position : BlockPos) : Bool :=
  match w.stateId position with
  | none => false
  | some current_state_id =>
      if is_source_block current_state_id then true
      else
        let current_level := get_water_level current_state_id
        if anyAdjacentSource w position then true
        else sourceSearchFrom fuel w position current_level

/-- Embeds `FluidManager::try_flow_downward` (fluid.rs lines 657-677). The returned
`bool` of the Rust function is discarded at both call sites, so it is not
modelled. -/
def try_flow_downward (r : Res) (position : BlockPos) : Res :=
  let below_pos := offsetPos position BlockDirection.Down
  match r.world.stateId below_pos with
  | some below_id =>
      if below_id = 0 ∨ (is_water below_id ∧ is_source_block below_id = false) then
        let r := emitBatch r below_pos WATER_LEVEL_7_STATE_ID
        emitSched r below_pos WATER_LEVEL_7_STATE_ID 0 3
      else r
  | none => r

/-- Inner expansion of `find_path_downward`'s BFS (fluid.rs lines 878-904):
process the four horizontal neighbors of `pos`; `none` means a downward
opening was found (the early `return Some(distance + 1)`). -/
def findPathExpand (w : FluidWorld) (pos : BlockPos) (distance : Int) :
    List BlockDirection → List (BlockPos × Int) → List BlockPos →
    Option (List (BlockPos × Int) × List BlockPos)
  | [], q, vis => some (q, vis)
  | d :: rest, q, vis =>
      let next_pos := offsetPos pos d
      if next_pos ∈ vis then findPathExpand w pos distance rest q vis
      else
        match w.stateId next_pos with
        | none => findPathExpand w pos distance rest q vis
        | some nid =>
            if (w.airFlag nid || w.replFlag nid) = false then
              findPathExpand w pos distance rest q vis
            else if passableAt w (offsetPos next_pos BlockDirection.Down) then none
            else
              findPathExpand w pos distance rest
                (q ++ [(next_pos, distance + 1)]) (vis ++ [next_pos])

/-- BFS loop of `find_path_downward` (fluid.rs lines 871-905); the queue is
FIFO (`VecDeque::pop_front`/`push_back`). -/
def findPathLoop (w : FluidWorld) : Nat → List (BlockPos × Int) → List BlockPos → Option Int
  | 0, _, _ => none
  | _ + 1, [], _ => none
  | fuel + 1, (pos, distance) :: qrest, vis =>
      if MAX_DOWNWARD_PATH_DISTANCE ≤ distance then findPathLoop w fuel qrest vis
      else
        match findPathExpand w pos distance horizontalDirections qrest vis with
        | none => some (distance + 1)
        | some (q2, vis2) => findPathLoop w fuel q2 vis2

/-- Embeds `FluidManager::find_path_downward` (fluid.rs lines 863-908). The BFS
explores at most the 41 cells within horizontal Manhattan distance 4 of the
start, so fuel 100 never runs out. -/
def find_path_downward (w : FluidWorld) (start_pos : BlockPos) : Option Int :=
  findPathLoop w 100 [(start_pos, 0)] [start_pos]

/-- The `!air && !replaceable` (solid cell) test on a `get_block_state` read,
with a failed read counting as not solid (the code's `if let Ok` pattern). -/
def solidBelow (w : FluidWorld) (p : BlockPos) : Bool :=
  match w.stateId p with
  | some s => !(w.airFlag s || w.replFlag s)
  | none => false

/-- The `can_place` guard of `try_flow_source_horizontally` (fluid.rs lines
716-729): never replace a source, replace flowing water only when its level is
strictly below 7, replace any non-water cell. -/
def sourceCanPlace (aid : Nat) : Bool :=
  if is_water aid then
    if is_source_block aid then false else decide (get_water_level aid < 7)
  else true

/-- The `should_flow` guard of `try_flow_horizontally` (fluid.rs lines
766-782): never into a source, into flowing water only when its level is
strictly below the level being written, into non-water only when passable. -/
def shouldFlowInto (w : FluidWorld) (p : BlockPos) (next_level : Int) : Bool :=
  match w.stateId p with
  | none => false
  | some aid =>
      if is_source_block aid then false
      else if is_water aid then decide (get_water_level aid < next_level)
      else w.airFlag aid || w.replFlag aid

/-- Weight of one direction in `calculate_flow_weights` (fluid.rs lines
832-857): `DEFAULT_FLOW_WEIGHT` if the adjacent cell is not passable (or the
read fails), `0` if the cell below the adjacent cell is solid, otherwise the
BFS result (or the default when the BFS finds nothing). -/
def directionWeight (w : FluidWorld) (position : BlockPos) (d : BlockDirection) : Int :=
  let adjacent_pos := offsetPos position d
  match w.stateId adjacent_pos with
  | none => DEFAULT_FLOW_WEIGHT
  | some aid =>
      if (w.airFlag aid || w.replFlag aid) = false then DEFAULT_FLOW_WEIGHT
      else if solidBelow w (offsetPos adjacent_pos BlockDirection.Down) then 0
      else (find_path_downward w adjacent_pos).getD DEFAULT_FLOW_WEIGHT

/-- Embeds `FluidManager::calculate_flow_weights` (fluid.rs lines 822-860). -/
def calculate_flow_weights (w : FluidWorld) (position : BlockPos) :
    List (BlockDirection × Int) :=
  horizontalDirections.map fun d => (d, directionWeight w position d)

/-- Embeds `weights.iter().map(..).min().unwrap_or(DEFAULT_FLOW_WEIGHT)`. -/
def minFlowWeight (ws : List (BlockDirection × Int)) : Int :=
  match ws with
  | [] => DEFAULT_FLOW_WEIGHT
  | x :: rest => rest.foldl (fun acc dw => min acc dw.2) x.2

/-- Body of the per-direction loop of `try_flow_source_horizontally`
(fluid.rs lines 700-747). -/
def flowSourceStep (r : Res) (position : BlockPos) (minw : Int)
    (dw : BlockDirection × Int) : Res :=
  if dw.2 = minw then
    let adjacent_pos := offsetPos position dw.1
    match r.world.stateId adjacent_pos with
    | none => r
    | some aid =>
        if r.world.airFlag aid || r.world.replFlag aid then
          let below_adjacent := offsetPos adjacent_pos BlockDirection.Down
          let has_ground_below : Bool := solidBelow r.world below_adjacent
          if sourceCanPlace aid then
            let r := emitBatch r adjacent_pos WATER_LEVEL_7_STATE_ID
            let r := emitSched r adjacent_pos WATER_LEVEL_7_STATE_ID 0
              (if has_ground_below then 1 else 2)
            if has_ground_below then r else emitSched r below_adjacent 0 0 2
          else r
        else r
  else r

/-- Embeds `FluidManager::try_flow_source_horizontally` (fluid.rs lines 680-748). -/
def try_flow_source_horizontally (r : Res) (position : BlockPos) : Res :=
  let weights := calculate_flow_weights r.world position
  let min_weight := minFlowWeight weights
  if min_weight = DEFAULT_FLOW_WEIGHT then r
  else weights.foldl (fun r dw => flowSourceStep r position min_weight dw) r

/-- The air-neighbor recheck loop nested in `try_flow_horizontally`
(fluid.rs lines 807-816): schedule an update for every air cell horizontally
adjacent to the newly filled cell, except back toward the origin. -/
def horizNeighborCheck (adjacent_pos : BlockPos) (d : BlockDirection)
    (r : Res) (next_dir : BlockDirection) : Res :=
  if next_dir ≠ oppositeDir d then
    let next_pos := offsetPos adjacent_pos next_dir
    match r.world.stateId next_pos with
    | some nid => if nid = 0 then emitSched r next_pos 0 0 1 else r
    | none => r
  else r

/-- Body of the per-direction loop of `try_flow_horizontally`
(fluid.rs lines 762-818). -/
def flowHorizStep (r : Res) (position : BlockPos) (current_level : Int)
    (d : BlockDirection) : Res :=
  let next_level := current_level - 1
  let next_state_id := get_state_id_for_level next_level
  let adjacent_pos := offsetPos position d
  if shouldFlowInto r.world adjacent_pos next_level then
    let below_adjacent := offsetPos adjacent_pos BlockDirection.Down
    let below_is_air := passableAt r.world below_adjacent
    let r := emitBatch r adjacent_pos next_state_id
    let r :=
      if below_is_air then
        emitSched (emitSched r adjacent_pos next_state_id 0 3) below_adjacent 0 0 3
      else emitSched r adjacent_pos next_state_id 0 1
    horizontalDirections.foldl (horizNeighborCheck adjacent_pos d) r
  else r

/-- Embeds `FluidManager::try_flow_horizontally` (fluid.rs lines 751-819). -/
def try_flow_horizontally (r : Res) (position : BlockPos) (current_level : Int) : Res :=
  if current_level ≤ 1 then r
  else
    horizontalDirections.foldl
      (fun r d => flowHorizStep r position current_level d) r

/-- Stable ascending insertion by level, matching the stable
`neighbors.sort_by(|a, b| a.1.cmp(&b.1))` of the source. -/
def insertByLevel (x : BlockPos × Int) : List (BlockPos × Int) → List (BlockPos × Int)
  | [] => [x]
  | y :: ys => if x.2 ≤ y.2 then x :: y :: ys else y :: insertByLevel x ys

/-- Stable sort of the collected neighbors, ascending by level. -/
def sortByLevel (l : List (BlockPos × Int)) : List (BlockPos × Int) :=
  l.foldr insertByLevel []

/-- Neighbor collection of `start_water_receding` (fluid.rs lines 398-433):
horizontal non-source water neighbors of level at most `level`, then the above
neighbor and the below neighbor whenever they are non-source water (with no
level restriction). -/
def collectRecedingNeighbors (w : FluidWorld) (position : BlockPos) (level : Int) :
    List (BlockPos × Int) :=
  let horiz := horizontalDirections.foldl
    (fun acc d =>
      let adjacent_pos := offsetPos position d
      match w.stateId adjacent_pos with
      | some aid =>
          if is_water aid ∧ is_source_block aid = false then
            if get_water_level aid ≤ level then acc ++ [(adjacent_pos, get_water_level aid)]
            else acc
          else acc
      | none => acc) []
  let above_pos := offsetPos position BlockDirection.Up
  let withAbove :=
    match w.stateId above_pos with
    | some aid =>
        if is_water aid ∧ is_source_block aid = false then
          horiz ++ [(above_pos, get_water_level aid)]
        else horiz
    | none => horiz
  let below_pos := offsetPos position BlockDirection.Down
  match w.stateId below_pos with
  | some bid =>
      if is_water bid ∧ is_source_block bid = false then
        withAbove ++ [(below_pos, get_water_level bid)]
      else withAbove
  | none => withAbove

/-- Embeds `FluidManager::start_water_receding` (fluid.rs lines 397-457). -/
def start_water_receding (r : Res) (position : BlockPos) (level : Int) : Res :=
  let neighbors := sortByLevel (collectRecedingNeighbors r.world position level)
  let r := neighbors.enum.foldl
    (fun r ip =>
      emitSched r ip.2.1 (get_state_id_for_level ip.2.2) ip.1 (3 - ((min ip.1 3 : Nat) : Int)))
    r
  emitSched r position (get_state_id_for_level level) neighbors.length 1

/-- One direction of the waterfall loop of `process_fluid_update`
(fluid.rs lines 360-392): when the side cell and the cell below it are both
passable, the spread cell is written immediately (bypassing the batch buffer)
and both cells are rescheduled at top priority. -/
def waterfallStep (r : Res) (position : BlockPos) (level : Int)
    (d : BlockDirection) : Res :=
  let side_pos := offsetPos position d
  let below_side_pos := offsetPos side_pos BlockDirection.Down
  let can_flow_side := passableAt r.world side_pos
  let below_is_air := passableAt r.world below_side_pos
  if can_flow_side ∧ below_is_air then
    let side_level := level - 1
    let side_state_id := get_state_id_for_level side_level
    let r := emitNow r side_pos side_state_id
    let r := emitSched r side_pos side_state_id 0 3
    emitSched r below_side_pos 0 0 3
  else r

/-- The count of horizontally-adjacent source blocks (fluid.rs lines 250-260
and 462-472). -/
def countHorizontalSources (w : FluidWorld) (position : BlockPos) : Nat :=
  horizontalDirections.foldl
    (fun n d =>
      match w.stateId (offsetPos position d) with
      | some aid => if is_source_block aid then n + 1 else n
      | none => n) 0

/-- Horizontal scan of `process_air_block_update` (fluid.rs lines 494-516):
`none` means a source neighbor with solid ground below the air cell was found
(the early `return` that places level-7 water), otherwise the highest flowing
neighbor level seen. -/
def airScanLoop (w : FluidWorld) (position : BlockPos) :
    List BlockDirection → Int → Option Int
  | [], highest_level => some highest_level
  | d :: rest, highest_level =>
      match w.stateId (offsetPos position d) with
      | none => airScanLoop w position rest highest_level
      | some aid =>
          if is_source_block aid then
            if solidBelow w (offsetPos position BlockDirection.Down) then none
            else airScanLoop w position rest highest_level
          else if is_water aid then
            airScanLoop w position rest
              (if highest_level < get_water_level aid then get_water_level aid
               else highest_level)
          else airScanLoop w position rest highest_level

/-- Embeds `FluidManager::process_air_block_update` (fluid.rs lines 460-531). All its
writes go directly to the world (`world.set_block_state`), not to the batch
buffer. -/
def process_air_block_update (r : Res) (position : BlockPos) : Res :=
  if 2 ≤ countHorizontalSources r.world position then
    let r := emitNow r position WATER_SOURCE_STATE_ID
    emitSched r position WATER_SOURCE_STATE_ID 0 2
  else
    let above_pos := offsetPos position BlockDirection.Up
    let aboveWater : Bool :=
      match r.world.stateId above_pos with
      | some above_id => is_water above_id
      | none => false
    if aboveWater then
      let r := emitNow r position WATER_LEVEL_7_STATE_ID
      emitSched r position WATER_LEVEL_7_STATE_ID 0 1
    else
      match airScanLoop r.world position horizontalDirections 0 with
      | none =>
          let r := emitNow r position WATER_LEVEL_7_STATE_ID
          emitSched r position WATER_LEVEL_7_STATE_ID 0 1
      | some highest_level =>
          if 1 < highest_level then
            if solidBelow r.world (offsetPos position BlockDirection.Down) then
              let new_state_id := get_state_id_for_level (highest_level - 1)
              let r := emitNow r position new_state_id
              emitSched r position new_state_id 0 1
            else r
          else r

/-- The neighbor rescheduling loop of the vanish branch of
`process_fluid_update` (fluid.rs lines 335-346). -/
def vanishNeighborSched (w : FluidWorld) (position : BlockPos)
    (r : Res) (d : BlockDirection) : Res :=
  let adjacent_pos := offsetPos position d
  match w.stateId adjacent_pos with
  | some a =>
      if is_water a ∧ is_source_block a = false then emitSched r adjacent_pos a 1 2
      else r
  | none => r

/-- Embeds `FluidManager::process_fluid_update` (fluid.rs lines 238-394). `fuel`
bounds the `has_source_connection` DFS. -/
def process_fluid_update (fuel : Nat) (w : FluidWorld) (m : FluidManager)
    (update : FluidUpdate) : Res :=
  let r : Res := ⟨w, m, []⟩
  let position := update.position
  match w.stateId position with
  | none => r
  | some current_state_id =>
      if current_state_id = 0 then
        if 2 ≤ countHorizontalSources w position then
          let r := emitBatch r position WATER_SOURCE_STATE_ID
          emitSched r position WATER_SOURCE_STATE_ID 0 2
        else process_air_block_update r position
      else if current_state_id ≠ update.fluid_state_id then r
      else if is_water current_state_id = false then r
      else if is_source_block current_state_id then
        let r := try_flow_downward r position
        try_flow_source_horizontally r position
      else
        let level := get_water_level current_state_id
        if has_source_connection fuel w position = false then
          if 1 < level then
            let new_level := level - 1
            let new_state_id := get_state_id_for_level new_level
            let r := emitBatch r position new_state_id
            let r := start_water_receding r position new_level
            let above_pos := offsetPos position BlockDirection.Up
            let below_pos := offsetPos position BlockDirection.Down
            let r :=
              match w.stateId above_pos with
              | some a =>
                  if is_water a ∧ is_source_block a = false then
                    emitSched r above_pos a 0 3
                  else r
              | none => r
            match w.stateId below_pos with
            | some b =>
                if is_water b ∧ is_source_block b = false then
                  emitSched r below_pos b 0 3
                else r
            | none => r
          else
            let r := emitBatch r position 0
            allDirections.foldl (vanishNeighborSched w position) r
        else
          let r := try_flow_downward r position
          let r := try_flow_horizontally r position level
          if 1 < level then
            horizontalDirections.foldl (fun r d => waterfallStep r position level d) r
          else r

/-- Stable descending insertion by priority, matching the stable
`updates_to_process.sort_by(|a, b| b.priority.cmp(&a.priority))`. -/
def insertByPrio (x : FluidUpdate) : List FluidUpdate → List FluidUpdate
  | [] => [x]
  | y :: ys => if y.priority ≤ x.priority then x :: y :: ys else y :: insertByPrio x ys

/-- Stable sort of the drained updates, descending by priority. -/
def sortByPriorityDesc (l : List FluidUpdate) : List FluidUpdate :=
  l.foldr insertByPrio []

/-- The updates gathered by `tick` after advancing the clock: pending entries
whose due tick has arrived, capped at `MAX_UPDATES_PER_TICK`
(fluid.rs lines 200-210). -/
def dueOf (m : FluidManager) : List (BlockPos × FluidUpdate) :=
  ((m.pending.filter
      (fun pu => decide (pu.2.tick_scheduled ≤ (m.current_tick + 1) % U32MOD))).take
    MAX_UPDATES_PER_TICK)

/-- The per-update processing loop of `tick` (fluid.rs lines 228-230),
threading world and manager state and concatenating the event traces. -/
def runUpdates (fuel : Nat) (l : List FluidUpdate) (r : Res) : Res :=
  l.foldl
    (fun r u =>
      let r2 := process_fluid_update fuel r.world r.mgr u
      ⟨r2.world, r2.mgr, r.events ++ r2.events⟩) r

/-- The batch flush at the end of `tick` (fluid.rs lines 233-235). -/
def applyBatch (w : FluidWorld) (batch : List (BlockPos × Nat)) : FluidWorld :=
  batch.foldl (fun w ps => setBlockState w ps.1 ps.2) w

/-- Embeds `FluidManager::tick` (fluid.rs lines 192-236). -/
def tick (fuel : Nat) (w : FluidWorld) (m : FluidManager) : Res :=
  let t := (m.current_tick + 1) % U32MOD
  let m1 := { m with current_tick := t }
  if m1.pending = [] then ⟨w, m1, []⟩
  else
    let due := dueOf m
    if due = [] then ⟨w, m1, []⟩
    else
      let updates_to_process := sortByPriorityDesc (due.map (fun pu => pu.2))
      let m2 := { m1 with
        pending := m1.pending.filter
          (fun pu => !(updates_to_process.any (fun u => decide (u.position = pu.1)))),
        batch := [] }
      let r := runUpdates fuel updates_to_process ⟨w, m2, []⟩
      ⟨applyBatch r.world r.mgr.batch, r.mgr, r.events⟩

/-- Embeds `FluidManager::add_fluid_source` (fluid.rs lines 111-121). -/
def add_fluid_source (r : Res) (position : BlockPos) (is_water_arg : Bool) : Res :=
  if is_water_arg = false then r
  else
    let r := emitNow r position WATER_SOURCE_STATE_ID
    emitSched r position WATER_SOURCE_STATE_ID 0 3

/-- The world of the C6 counterexample: the cell above the origin is
non-source water of level 5 (state id 89); every other cell is a solid block
(state id 5, neither air nor replaceable). -/
def recedingWorld : FluidWorld :=
  ⟨fun q => if q = ⟨0, 1, 0⟩ then some 89 else some 5,
   fun s => decide (s = 0), fun _ => false⟩

/-- The world of the C1 counterexample: a level-7 flowing cell at the origin,
non-source level-1 water directly above it, a source two cells above, and
solid blocks everywhere else. The origin's only path to the source runs
through the fluid cell directly above it. -/
def sourceConnWorld : FluidWorld :=
  ⟨fun q =>
     if q = ⟨0, 0, 0⟩ then some 87
     else if q = ⟨0, 1, 0⟩ then some 93
     else if q = ⟨0, 2, 0⟩ then some 86
     else some 5,
   fun s => decide (s = 0), fun _ => false⟩

/-- The world of the C7 witness: a source at the origin; the east neighbor is
air with solid ground below it (flow weight 0); the three other horizontal
neighbors are solid (sentinel weight); everything else is solid. -/
def flowWeightWorld : FluidWorld :=
  ⟨fun q => if q = ⟨0, 0, 0⟩ then some 86 else if q = ⟨1, 0, 0⟩ then some 0 else some 5,
   fun s => decide (s = 0), fun _ => false⟩

/-- A world of solid blocks everywhere: every flow weight is the sentinel. -/
def allSolidWorld : FluidWorld :=
  ⟨fun _ => some 5, fun s => decide (s = 0), fun _ => false⟩

/-- The world of the C4 counterexample: a level-3 flowing cell at the origin,
a water source east of it whose block state the registry marks replaceable
(as block registries for water do), air below that source, and solid blocks
everywhere else. -/
def waterfallOverwriteWorld : FluidWorld :=
  ⟨fun q =>
     if q = ⟨0, 0, 0⟩ then some 91
     else if q = ⟨1, 0, 0⟩ then some 86
     else if q = ⟨1, -1, 0⟩ then some 0
     else some 5,
   fun s => decide (s = 0), fun s => decide (s = 86)⟩

/-- The world of the C4 witness, first part: a source spreading east onto
existing level-1 water whose state the registry marks replaceable, with solid
ground below it. -/
def sourceSpreadWorld : FluidWorld :=
  ⟨fun q => if q = ⟨1, 0, 0⟩ then some 93 else some 5,
   fun s => decide (s = 0), fun s => decide (s = 93)⟩

/-- The world of the C4 witness, second and third parts: level-1 water east
of the origin and below the origin; nothing is passable. -/
def waterNeighborWorld : FluidWorld :=
  ⟨fun q =>
     if q = ⟨1, 0, 0⟩ then some 93
     else if q = ⟨0, -1, 0⟩ then some 93
     else some 5,
   fun s => decide (s = 0), fun _ => false⟩

/-- The world of the C4 witness, fourth part: air east of the origin and below
that air; solid elsewhere; no water state is passable. -/
def waterfallAirWorld : FluidWorld :=
  ⟨fun q =>
     if q = ⟨1, 0, 0⟩ then some 0
     else if q = ⟨1, -1, 0⟩ then some 0
     else some 5,
   fun s => decide (s = 0), fun _ => false⟩

/-- A world where every read fails (unloaded everywhere). -/
def voidWorld : FluidWorld :=
  ⟨fun _ => none, fun s => decide (s = 0), fun _ => false⟩

/-- The world of the C3 counterexample: the origin is air, non-source level-7
water sits above it, and everything else is solid. -/
def staleAirWorld : FluidWorld :=
  ⟨fun q =>
     if q = ⟨0, 0, 0⟩ then some 0
     else if q = ⟨0, 1, 0⟩ then some 87
     else some 5,
   fun s => decide (s = 0), fun _ => false⟩

/-- The manager of the C2 counterexample: one due pending update for the air
cell at the origin. -/
def tickAirMgr : FluidManager := ⟨[(⟨0, 0, 0⟩, ⟨⟨0, 0, 0⟩, 0, 0, 1⟩)], 10, []⟩

/-- The world of the C8 counterexample: a level-7 flowing cell at the origin
fed by a source to its west, air to its east with solid ground below, solid
elsewhere. -/
def flushWorld : FluidWorld :=
  ⟨fun q =>
     if q = ⟨0, 0, 0⟩ then some 87
     else if q = ⟨-1, 0, 0⟩ then some 86
     else if q = ⟨1, 0, 0⟩ then some 0
     else some 5,
   fun s => decide (s = 0), fun _ => false⟩

/-- The manager of the C8 counterexample: one due pending update for the
origin and an empty batch buffer. -/
def flushMgr : FluidManager := ⟨[(⟨0, 0, 0⟩, ⟨⟨0, 0, 0⟩, 87, 0, 1⟩)], 10, []⟩

/-- A manager with a due update and a stale non-empty batch buffer left over
from an earlier tick. -/
def flushMgrStale : FluidManager :=
  ⟨[(⟨0, 0, 0⟩, ⟨⟨0, 0, 0⟩, 87, 0, 1⟩)], 10, [(⟨9, 9, 9⟩, 77)]⟩

/-- A manager with nothing pending and a stale non-empty batch buffer. -/
def idleMgrStale : FluidManager := ⟨[], 10, [(⟨9, 9, 9⟩, 77)]⟩

/-- Looking up the key just replaced yields the new binding. -/
theorem lookupPos_replace_self (l : List (BlockPos × FluidUpdate)) (p : BlockPos)
    (u old : FluidUpdate) (h : lookupPos l p = some old) :
    lookupPos (replacePos l p u) p = some u := by
  induction l with
  | nil => simp [lookupPos] at h
  | cons hd tl ih =>
      obtain ⟨k, v⟩ := hd
      by_cases hk : k = p
      · simp [replacePos, hk, lookupPos]
      · simp only [lookupPos, if_neg hk] at h
        simp only [replacePos, if_neg hk, lookupPos, if_neg hk]
        exact ih h

/-- Replacing a binding does not change the key list. -/
theorem replacePos_map_fst (l : List (BlockPos × FluidUpdate)) (p : BlockPos)
    (u : FluidUpdate) : (replacePos l p u).map Prod.fst = l.map Prod.fst := by
  induction l with
  | nil => rfl
  | cons hd tl ih =>
      obtain ⟨k, v⟩ := hd
      by_cases hk : k = p
      · simp [replacePos, hk]
      · simp [replacePos, hk, ih]

/-- A failed lookup means the key is absent. -/
theorem lookupPos_none_not_mem (l : List (BlockPos × FluidUpdate)) (p : BlockPos)
    (h : lookupPos l p = none) : p ∉ l.map Prod.fst := by
  induction l with
  | nil => simp
  | cons hd tl ih =>
      obtain ⟨k, v⟩ := hd
      by_cases hk : k = p
      · simp [lookupPos, hk] at h
      · simp only [lookupPos, if_neg hk] at h
        simpa [hk, Ne.symm hk] using ih h

/-- Appending a fresh binding makes it visible to lookup. -/
theorem lookupPos_append_single (l : List (BlockPos × FluidUpdate)) (p : BlockPos)
    (u : FluidUpdate) (h : lookupPos l p = none) :
    lookupPos (l ++ [(p, u)]) p = some u := by
  induction l with
  | nil => simp [lookupPos]
  | cons hd tl ih =>
      obtain ⟨k, v⟩ := hd
      by_cases hk : k = p
      · simp [lookupPos, hk] at h
      · simp only [lookupPos, if_neg hk] at h
        simpa [lookupPos, if_neg hk] using ih h

/-- A valid state id (air or water) does not trip the early-return guard of
`schedule_update`. -/
theorem schedule_update_valid_guard (fid : Nat) (hv : fid = 0 ∨ is_water fid = true) :
    ¬(fid ≠ 0 ∧ is_water fid = false) := by
  rintro ⟨h1, h2⟩
  rcases hv with h | h
  · exact h1 h
  · rw [h] at h2; cases h2

/-- Scheduling a valid state id for a position with no pending entry appends a
fresh entry and leaves the clock alone. -/
theorem schedule_update_fresh (m : FluidManager) (pos : BlockPos) (fid d : Nat)
    (p : Int) (hv : fid = 0 ∨ is_water fid = true)
    (hnone : lookupPos m.pending pos = none) :
    (schedule_update m pos fid d p).pending =
      m.pending ++
        [(pos, ⟨pos, fid, (m.current_tick + (FLUID_TICK_RATE + d)) % U32MOD, p⟩)] ∧
    (schedule_update m pos fid d p).current_tick = m.current_tick := by
  unfold schedule_update
  rw [if_neg (schedule_update_valid_guard fid hv)]
  simp [hnone]

/-- Characterization of `schedule_update` on a position that already has a
pending entry: the entry is replaced exactly when the request is valid and is
due strictly sooner, or due at the same tick with strictly higher priority;
otherwise the old entry is kept. -/
theorem schedule_update_lookup_char (m : FluidManager) (pos : BlockPos)
    (fid delay : Nat) (prio : Int) (old : FluidUpdate)
    (hlook : lookupPos m.pending pos = some old) :
    lookupPos (schedule_update m pos fid delay prio).pending pos =
      (if (fid = 0 ∨ is_water fid = true) ∧
          ((m.current_tick + (FLUID_TICK_RATE + delay)) % U32MOD < old.tick_scheduled ∨
           ((m.current_tick + (FLUID_TICK_RATE + delay)) % U32MOD = old.tick_scheduled ∧
            old.priority < prio))
       then some ⟨pos, fid, (m.current_tick + (FLUID_TICK_RATE + delay)) % U32MOD, prio⟩
       else some old) := by
  by_cases hv : fid = 0 ∨ is_water fid = true
  · unfold schedule_update
    rw [if_neg (schedule_update_valid_guard fid hv)]
    simp only [hlook]
    by_cases hkeep : old.tick_scheduled <
        (m.current_tick + (FLUID_TICK_RATE + delay)) % U32MOD ∨
        (old.tick_scheduled = (m.current_tick + (FLUID_TICK_RATE + delay)) % U32MOD ∧
         prio ≤ old.priority)
    · rw [if_pos hkeep, hlook, if_neg]
      rintro ⟨-, hc⟩
      rcases hkeep with h | ⟨h1, h2⟩
      · rcases hc with h2 | ⟨h2, -⟩ <;> omega
      · rcases hc with h3 | ⟨-, h3⟩ <;> omega
    · rw [if_neg hkeep]
      rw [lookupPos_replace_self m.pending pos _ old hlook]
      rw [if_pos]
      refine ⟨hv, ?_⟩
      rcases Nat.lt_trichotomy ((m.current_tick + (FLUID_TICK_RATE + delay)) % U32MOD)
          old.tick_scheduled with h | h | h
      · exact Or.inl h
      · refine Or.inr ⟨h, ?_⟩
        by_contra hle
        exact hkeep (Or.inr ⟨h.symm, by omega⟩)
      · exact absurd (Or.inl h) hkeep
  · have hg : fid ≠ 0 ∧ is_water fid = false := by
      push_neg at hv
      exact ⟨hv.1, by simpa using hv.2⟩
    unfold schedule_update
    rw [if_pos hg, hlook, if_neg]
    rintro ⟨hv2, -⟩
    exact hv hv2

/-- C5: `schedule_update` keeps at most one pending update per position
(the key list stays duplicate-free), and for a position that already has an
entry it replaces that entry exactly when the new request is valid (air or
water state id) and is due strictly sooner, or due at the same tick with
strictly higher priority; scheduling the same position twice with due ticks
t1 < t2 retains the first entry, and with equal due ticks and second priority
at most the first it also retains the first entry. -/
theorem C5_schedule_update_dedup :
    (∀ (m : FluidManager) (pos : BlockPos) (fid delay : Nat) (prio : Int),
       (m.pending.map Prod.fst).Nodup →
       ((schedule_update m pos fid delay prio).pending.map Prod.fst).Nodup) ∧
    (∀ (m : FluidManager) (pos : BlockPos) (fid delay : Nat) (prio : Int)
       (old : FluidUpdate),
       lookupPos m.pending pos = some old →
       lookupPos (schedule_update m pos fid delay prio).pending pos =
         (if (fid = 0 ∨ is_water fid = true) ∧
             ((m.current_tick + (FLUID_TICK_RATE + delay)) % U32MOD < old.tick_scheduled ∨
              ((m.current_tick + (FLUID_TICK_RATE + delay)) % U32MOD = old.tick_scheduled ∧
               old.priority < prio))
          then some ⟨pos, fid, (m.current_tick + (FLUID_TICK_RATE + delay)) % U32MOD, prio⟩
          else some old)) ∧
    (∀ (m : FluidManager) (pos : BlockPos) (fid d1 d2 : Nat) (p1 p2 : Int),
       (fid = 0 ∨ is_water fid = true) →
       lookupPos m.pending pos = none →
       (m.current_tick + (FLUID_TICK_RATE + d1)) % U32MOD <
         (m.current_tick + (FLUID_TICK_RATE + d2)) % U32MOD →
       lookupPos (schedule_update (schedule_update m pos fid d1 p1) pos fid d2 p2).pending pos =
         some ⟨pos, fid, (m.current_tick + (FLUID_TICK_RATE + d1)) % U32MOD, p1⟩) ∧
    (∀ (m : FluidManager) (pos : BlockPos) (fid d : Nat) (p1 p2 : Int),
       (fid = 0 ∨ is_water fid = true) →
       lookupPos m.pending pos = none →
       p2 ≤ p1 →
       lookupPos (schedule_update (schedule_update m pos fid d p1) pos fid d p2).pending pos =
         some ⟨pos, fid, (m.current_tick + (FLUID_TICK_RATE + d)) % U32MOD, p1⟩) := by
  refine ⟨?_, fun m pos fid delay prio old h =>
      schedule_update_lookup_char m pos fid delay prio old h, ?_, ?_⟩
  · intro m pos fid delay prio hnd
    unfold schedule_update
    split
    · exact hnd
    · cases hlook : lookupPos m.pending pos with
      | some old =>
          simp only [hlook]
          split
          · exact hnd
          · simpa [replacePos_map_fst] using hnd
      | none =>
          simp only [hlook]
          have hmem := lookupPos_none_not_mem m.pending pos hlook
          simp only [List.map_append, List.map_cons, List.map_nil]
          rw [List.nodup_append]
          refine ⟨hnd, by simp, ?_⟩
          intro a ha
          simp only [List.mem_singleton]
          rintro rfl
          exact hmem ha
  · intro m pos fid d1 d2 p1 p2 hv hnone hlt
    obtain ⟨hp1, ht1⟩ := schedule_update_fresh m pos fid d1 p1 hv hnone
    have hlook1 : lookupPos (schedule_update m pos fid d1 p1).pending pos =
        some ⟨pos, fid, (m.current_tick + (FLUID_TICK_RATE + d1)) % U32MOD, p1⟩ := by
      rw [hp1]
      exact lookupPos_append_single m.pending pos _ hnone
    rw [schedule_update_lookup_char _ pos fid d2 p2 _ hlook1, ht1, if_neg]
    rintro ⟨-, h | ⟨h, -⟩⟩ <;> simp only at h <;> omega
  · intro m pos fid d p1 p2 hv hnone hle
    obtain ⟨hp1, ht1⟩ := schedule_update_fresh m pos fid d p1 hv hnone
    have hlook1 : lookupPos (schedule_update m pos fid d p1).pending pos =
        some ⟨pos, fid, (m.current_tick + (FLUID_TICK_RATE + d)) % U32MOD, p1⟩ := by
      rw [hp1]
      exact lookupPos_append_single m.pending pos _ hnone
    rw [schedule_update_lookup_char _ pos fid d p2 _ hlook1, ht1, if_neg]
    rintro ⟨-, h | ⟨-, h⟩⟩ <;> simp only at h <;> omega

/-- Witness for C5 at concrete inputs: dedup keeps keys unique; an equal-tick
higher-priority request replaces the entry; due ticks 5 < 6 retain the first
entry; equal due ticks with lower second priority retain the first entry. -/
theorem C5_schedule_update_dedup_witness :
    ((schedule_update ⟨[(⟨0, 0, 0⟩, ⟨⟨0, 0, 0⟩, 93, 12, 1⟩)], 7, []⟩
        ⟨0, 0, 0⟩ 93 0 2).pending.map Prod.fst).Nodup ∧
    lookupPos (schedule_update ⟨[(⟨0, 0, 0⟩, ⟨⟨0, 0, 0⟩, 93, 12, 1⟩)], 7, []⟩
        ⟨0, 0, 0⟩ 93 0 2).pending ⟨0, 0, 0⟩ = some ⟨⟨0, 0, 0⟩, 93, 12, 2⟩ ∧
    lookupPos (schedule_update (schedule_update ⟨[], 0, []⟩ ⟨0, 0, 0⟩ 93 0 3)
        ⟨0, 0, 0⟩ 93 1 1).pending ⟨0, 0, 0⟩ = some ⟨⟨0, 0, 0⟩, 93, 5, 3⟩ ∧
    lookupPos (schedule_update (schedule_update ⟨[], 0, []⟩ ⟨0, 0, 0⟩ 93 2 3)
        ⟨0, 0, 0⟩ 93 2 1).pending ⟨0, 0, 0⟩ = some ⟨⟨0, 0, 0⟩, 93, 7, 3⟩ := by
  refine ⟨C5_schedule_update_dedup.1 _ ⟨0, 0, 0⟩ 93 0 2 (by decide), ?_, ?_, ?_⟩
  · have h := C5_schedule_update_dedup.2.1 ⟨[(⟨0, 0, 0⟩, ⟨⟨0, 0, 0⟩, 93, 12, 1⟩)], 7, []⟩
      ⟨0, 0, 0⟩ 93 0 2 ⟨⟨0, 0, 0⟩, 93, 12, 1⟩ (by decide)
    exact h.trans (by decide)
  · have h := C5_schedule_update_dedup.2.2.1 ⟨[], 0, []⟩ ⟨0, 0, 0⟩ 93 0 1 3 1
      (by decide) (by decide) (by decide)
    exact h.trans (by decide)
  · have h := C5_schedule_update_dedup.2.2.2 ⟨[], 0, []⟩ ⟨0, 0, 0⟩ 93 2 3 1
      (by decide) (by decide) (by decide)
    exact h.trans (by decide)

/-- C9: the level mapping is a bijection on its domain — every level 1..8
round-trips through `get_state_id_for_level` and `get_water_level`, and every
state id that is not one of the eight water ids has level 0. -/
theorem C9_level_bijection :
    (∀ level : Int, 1 ≤ level → level ≤ 8 →
       get_water_level (get_state_id_for_level level) = level) ∧
    (∀ state_id : Nat, is_water state_id = false → get_water_level state_id = 0) := by
  constructor
  · intro l h1 h2
    interval_cases l <;> decide
  · intro s hs
    simp only [get_water_level]
    repeat' split
    all_goals first
      | rfl
      | (rename_i h; rw [h] at hs; exact absurd hs (by decide))

/-- Witness for C9 at concrete inputs. -/
theorem C9_level_bijection_witness :
    get_water_level (get_state_id_for_level 5) = 5 ∧ get_water_level 42 = 0 :=
  ⟨C9_level_bijection.1 5 (by decide) (by decide), C9_level_bijection.2 42 (by decide)⟩

/-- C10: `add_fluid_source` with `is_water = false` returns immediately —
the world, the pending-update map and the batch buffer are all unchanged and
no effect is performed. -/
theorem C10_add_fluid_source_non_water_noop :
    ∀ (r : Res) (position : BlockPos), add_fluid_source r position false = r := by
  intro r position
  rfl

/-- Inserting by level is a permutation of consing. -/
theorem insertByLevel_perm (x : BlockPos × Int) (l : List (BlockPos × Int)) :
    List.Perm (insertByLevel x l) (x :: l) := by
  induction l with
  | nil => rfl
  | cons y ys ih =>
      by_cases h : x.2 ≤ y.2
      · simp [insertByLevel, h]
      · simp only [insertByLevel, if_neg h]
        exact (ih.cons y).trans (List.Perm.swap x y ys)

/-- The stable level sort is a permutation of its input. -/
theorem sortByLevel_perm (l : List (BlockPos × Int)) :
    List.Perm (sortByLevel l) l := by
  induction l with
  | nil => rfl
  | cons x xs ih =>
      exact (insertByLevel_perm x (sortByLevel xs)).trans (ih.cons x)

/-- Inserting by level preserves the ascending-by-level invariant. -/
theorem insertByLevel_pairwise (x : BlockPos × Int) (l : List (BlockPos × Int))
    (h : l.Pairwise (fun a b => a.2 ≤ b.2)) :
    (insertByLevel x l).Pairwise (fun a b => a.2 ≤ b.2) := by
  induction l with
  | nil => simp [insertByLevel]
  | cons y ys ih =>
      rw [List.pairwise_cons] at h
      by_cases hle : x.2 ≤ y.2
      · simp only [insertByLevel, if_pos hle]
        rw [List.pairwise_cons]
        refine ⟨?_, List.pairwise_cons.mpr h⟩
        intro z hz
        rcases List.mem_cons.mp hz with rfl | hz
        · exact hle
        · exact le_trans hle (h.1 z hz)
      · simp only [insertByLevel, if_neg hle]
        rw [List.pairwise_cons]
        refine ⟨?_, ih h.2⟩
        intro z hz
        rcases List.mem_cons.mp ((insertByLevel_perm x ys).mem_iff.mp hz) with rfl | hz2
        · omega
        · exact h.1 z hz2

/-- The stable level sort produces an ascending-by-level list. -/
theorem sortByLevel_pairwise (l : List (BlockPos × Int)) :
    (sortByLevel l).Pairwise (fun a b => a.2 ≤ b.2) := by
  induction l with
  | nil => simp [sortByLevel]
  | cons x xs ih => exact insertByLevel_pairwise x _ ih

/-- Projection of `emitSched` on the event trace. -/
theorem emitSched_events (r : Res) (p : BlockPos) (s delay : Nat) (prio : Int) :
    (emitSched r p s delay prio).events = r.events ++ [Ev.sched p s delay prio] := rfl

/-- Projection of `emitBatch` on the event trace. -/
theorem emitBatch_events (r : Res) (p : BlockPos) (s : Nat) :
    (emitBatch r p s).events = r.events ++ [Ev.writeBatch p s] := rfl

/-- Projection of `emitNow` on the event trace. -/
theorem emitNow_events (r : Res) (p : BlockPos) (s : Nat) :
    (emitNow r p s).events = r.events ++ [Ev.writeNow p s] := rfl

/-- Fact: `emitSched` and `emitBatch` leave the world untouched. -/
theorem emitSched_world (r : Res) (p : BlockPos) (s delay : Nat) (prio : Int) :
    (emitSched r p s delay prio).world = r.world := rfl

/-- Fact: `emitBatch` leaves the world untouched. -/
theorem emitBatch_world (r : Res) (p : BlockPos) (s : Nat) :
    (emitBatch r p s).world = r.world := rfl

/-- Folding `emitSched` over a list appends exactly the corresponding `sched`
events. -/
theorem foldl_emitSched_events {α : Type} (f : α → BlockPos) (g : α → Nat)
    (dl : α → Nat) (pr : α → Int) :
    ∀ (l : List α) (r : Res),
      (l.foldl (fun r x => emitSched r (f x) (g x) (dl x) (pr x)) r).events =
        r.events ++ l.map (fun x => Ev.sched (f x) (g x) (dl x) (pr x)) := by
  intro l
  induction l with
  | nil => intro r; simp
  | cons x xs ih =>
      intro r
      simp only [List.foldl_cons, List.map_cons]
      rw [ih]
      simp [emitSched]

/-- C6 (amended): when a flowing cell recedes, the collected neighbors are the
horizontal non-source fluid neighbors of level at most the new level plus the
vertical (above and below) non-source fluid neighbors regardless of their
level; they are sorted ascending by level, the rank-i neighbor is scheduled
with delay i and priority 3 - min(i, 3), and the decaying cell itself is
scheduled last with delay equal to the number of collected neighbors. -/
theorem C6_receding_cascade_amended :
    ∀ (r : Res) (position : BlockPos) (level : Int),
      (start_water_receding r position level).events =
        r.events ++
          (sortByLevel (collectRecedingNeighbors r.world position level)).enum.map
            (fun ip => Ev.sched ip.2.1 (get_state_id_for_level ip.2.2) ip.1
              (3 - ((min ip.1 3 : Nat) : Int))) ++
          [Ev.sched position (get_state_id_for_level level)
            (sortByLevel (collectRecedingNeighbors r.world position level)).length 1] ∧
      (sortByLevel (collectRecedingNeighbors r.world position level)).Pairwise
        (fun a b => a.2 ≤ b.2) ∧
      List.Perm (sortByLevel (collectRecedingNeighbors r.world position level))
        (collectRecedingNeighbors r.world position level) := by
  intro r position level
  refine ⟨?_, sortByLevel_pairwise _, sortByLevel_perm _⟩
  simp only [start_water_receding]
  rw [emitSched_events]
  rw [foldl_emitSched_events]

/-- C6 counterexample: the claim says only neighbors with level at most the
decaying cell's new level are collected, but `start_water_receding` collects
the above neighbor unconditionally — with new level 2, the above neighbor of
level 5 (state id 89, and 5 > 2) is still scheduled (and the cell itself is
scheduled last with delay 1). -/
theorem C6_receding_cascade_counterexample :
    (start_water_receding ⟨recedingWorld, ⟨[], 0, []⟩, []⟩ ⟨0, 0, 0⟩ 2).events =
      [Ev.sched ⟨0, 1, 0⟩ 89 0 3, Ev.sched ⟨0, 0, 0⟩ 92 1 1] ∧
    get_water_level 89 = 5 ∧ ¬((5 : Int) ≤ 2) := by
  refine ⟨?_, by decide, by decide⟩
  decide

/-- C1 counterexample: the claim says a flowing cell of any level whose only
path to a source runs through the fluid cell directly above it is reported as
connected (the DFS follows the up-neighbor unconditionally). In this world the
origin is flowing at level 7, the cell above is fluid and leads straight up to
a source, yet `has_source_connection` returns false: the code returns false
for any level-7 cell without a directly adjacent source, skipping the DFS
(fluid.rs lines 560-562). The spec-modelled search without that shortcut
returns true. -/
theorem C1_has_source_connection_counterexample :
    has_source_connection 100 sourceConnWorld ⟨0, 0, 0⟩ = false ∧
    specHasSourceConnection 100 sourceConnWorld ⟨0, 0, 0⟩ = true ∧
    sourceConnWorld.stateId ⟨0, 0, 0⟩ = some 87 ∧
    is_water 87 = true ∧ is_source_block 87 = false ∧ get_water_level 87 = 7 ∧
    sourceConnWorld.stateId ⟨0, 1, 0⟩ = some 93 ∧ is_water 93 = true ∧
    is_source_block 93 = false ∧
    sourceConnWorld.stateId ⟨0, 2, 0⟩ = some 86 ∧ is_source_block 86 = true := by
  decide

/-- C1 (amended): `has_source_connection` returns true if the cell itself is a
source or any of its six neighbors is a source; if the cell's level is 7 and
no neighbor is a source it returns false without searching; for any other
level it agrees with the spec's described search (quick neighbor check
followed by the DFS that ascends strictly-increasing horizontal levels and
follows the fluid up-neighbor unconditionally). -/
theorem C1_has_source_connection_amended :
    (∀ (fuel : Nat) (w : FluidWorld) (p : BlockPos) (cid : Nat),
       w.stateId p = some cid → is_source_block cid = true →
       has_source_connection fuel w p = true) ∧
    (∀ (fuel : Nat) (w : FluidWorld) (p : BlockPos) (cid : Nat) (d : BlockDirection)
       (a : Nat),
       w.stateId p = some cid → d ∈ allDirections →
       w.stateId (offsetPos p d) = some a → is_source_block a = true →
       has_source_connection fuel w p = true) ∧
    (∀ (fuel : Nat) (w : FluidWorld) (p : BlockPos) (cid : Nat),
       w.stateId p = some cid → get_water_level cid = 7 →
       anyAdjacentSource w p = false →
       has_source_connection fuel w p = false) ∧
    (∀ (fuel : Nat) (w : FluidWorld) (p : BlockPos) (cid : Nat),
       w.stateId p = some cid → get_water_level cid ≠ 7 →
       has_source_connection fuel w p = specHasSourceConnection fuel w p) := by
  refine ⟨?_, ?_, ?_, ?_⟩
  · intro fuel w p cid hread hsrc
    simp [has_source_connection, hread, hsrc]
  · intro fuel w p cid d a hread hd hadj hsrc
    simp only [has_source_connection, hread]
    by_cases hs : is_source_block cid
    · simp [hs]
    · have hany : anyAdjacentSource w p = true := by
        unfold anyAdjacentSource
        rw [List.any_eq_true]
        exact ⟨d, hd, by simp [hadj, hsrc]⟩
      simp [hs, hany]
  · intro fuel w p cid hread hlvl hany
    have hs : is_source_block cid = false := by
      by_cases hc : cid = 86
      · rw [hc] at hlvl
        exact absurd hlvl (by decide)
      · simp [is_source_block, WATER_SOURCE_STATE_ID, hc]
    simp [has_source_connection, hread, hs, hany, hlvl]
  · intro fuel w p cid hread hlvl
    simp only [has_source_connection, specHasSourceConnection, hread]
    by_cases hs : is_source_block cid
    · simp [hs]
    · by_cases hany : anyAdjacentSource w p
      · simp [hs, hany]
      · simp [hs, hany, hlvl]

/-- Witness for the amended C1 at concrete inputs: the source cell itself, a
cell directly under a source, the shortcut at a level-7 cell, and agreement
with the spec's search at a level-1 cell. -/
theorem C1_has_source_connection_amended_witness :
    has_source_connection 100 sourceConnWorld ⟨0, 2, 0⟩ = true ∧
    has_source_connection 100 sourceConnWorld ⟨0, 1, 0⟩ = true ∧
    has_source_connection 100 sourceConnWorld ⟨0, 0, 0⟩ = false ∧
    has_source_connection 100 sourceConnWorld ⟨5, 5, 5⟩ =
      specHasSourceConnection 100 sourceConnWorld ⟨5, 5, 5⟩ :=
  ⟨C1_has_source_connection_amended.1 100 sourceConnWorld ⟨0, 2, 0⟩ 86 (by decide)
     (by decide),
   C1_has_source_connection_amended.2.1 100 sourceConnWorld ⟨0, 1, 0⟩ 93
     BlockDirection.Up 86 (by decide) (by decide) (by decide) (by decide),
   C1_has_source_connection_amended.2.2.1 100 sourceConnWorld ⟨0, 0, 0⟩ 87 (by decide)
     (by decide) (by decide),
   C1_has_source_connection_amended.2.2.2 100 sourceConnWorld ⟨5, 5, 5⟩ 5 (by decide)
     (by decide)⟩

/-- Fact: `flowSourceStep` leaves the world untouched (it only batches writes and
schedules updates). -/
theorem flowSourceStep_world (r : Res) (position : BlockPos) (minw : Int)
    (dw : BlockDirection × Int) :
    (flowSourceStep r position minw dw).world = r.world := by
  simp only [flowSourceStep]
  repeat' split
  all_goals rfl

/-- The `can_place` guard lets water through only when it is non-source and
strictly below level 7. -/
theorem sourceCanPlace_water (aid : Nat) (h : sourceCanPlace aid = true)
    (hw : is_water aid = true) :
    is_source_block aid = false ∧ get_water_level aid < 7 := by
  unfold sourceCanPlace at h
  rw [if_pos hw] at h
  by_cases hs : is_source_block aid = true
  · rw [if_pos hs] at h
    cases h
  · rw [if_neg hs] at h
    exact ⟨by simpa using hs, of_decide_eq_true h⟩

/-- Any batched write newly produced by `flowSourceStep` targets the step's
own direction, has weight equal to the minimum, writes the level-7 state, and
its target either holds no water or holds non-source water of level
strictly below 7. -/
theorem flowSourceStep_batch_mem (r : Res) (position : BlockPos) (minw : Int)
    (dw : BlockDirection × Int) (q : BlockPos) (v : Nat)
    (h : Ev.writeBatch q v ∈ (flowSourceStep r position minw dw).events) :
    Ev.writeBatch q v ∈ r.events ∨
      (dw.2 = minw ∧ q = offsetPos position dw.1 ∧ v = WATER_LEVEL_7_STATE_ID ∧
       ∃ aid, r.world.stateId (offsetPos position dw.1) = some aid ∧
         (is_water aid = true → is_source_block aid = false ∧ get_water_level aid < 7)) := by
  simp only [flowSourceStep] at h
  split at h
  · rename_i hw
    split at h
    · exact Or.inl h
    · rename_i aid hread
      split at h
      · split at h
        · rename_i hcp
          split at h
          · simp only [emitSched_events, emitBatch_events, List.mem_append,
              List.mem_singleton] at h
            rcases h with (h | h) | h
            · exact Or.inl h
            · injection h with h1 h2
              exact Or.inr ⟨hw, h1, h2, aid, hread, sourceCanPlace_water aid hcp⟩
            · exact Ev.noConfusion h
          · simp only [emitSched_events, emitBatch_events, List.mem_append,
              List.mem_singleton] at h
            rcases h with ((h | h) | h) | h
            · exact Or.inl h
            · injection h with h1 h2
              exact Or.inr ⟨hw, h1, h2, aid, hread, sourceCanPlace_water aid hcp⟩
            · exact Ev.noConfusion h
            · exact Ev.noConfusion h
        · exact Or.inl h
      · exact Or.inl h
  · exact Or.inl h

/-- Folding `flowSourceStep` over a weight list: every new batched write comes
from some minimum-weight entry of the list, targets that entry's direction
with the level-7 state, and respects the existing-water guard. -/
theorem foldl_flowSourceStep_batch_mem (position : BlockPos) (minw : Int)
    (q : BlockPos) (v : Nat) :
    ∀ (l : List (BlockDirection × Int)) (r : Res),
      Ev.writeBatch q v ∈
        (l.foldl (fun r dw => flowSourceStep r position minw dw) r).events →
      Ev.writeBatch q v ∈ r.events ∨
        ∃ dw, dw ∈ l ∧ dw.2 = minw ∧ q = offsetPos position dw.1 ∧
          v = WATER_LEVEL_7_STATE_ID ∧
          ∃ aid, r.world.stateId (offsetPos position dw.1) = some aid ∧
            (is_water aid = true → is_source_block aid = false ∧ get_water_level aid < 7) := by
  intro l
  induction l with
  | nil => intro r h; exact Or.inl h
  | cons x xs ih =>
      intro r h
      simp only [List.foldl_cons] at h
      rcases ih (flowSourceStep r position minw x) h with h2 | ⟨dw, hdw, hmin, hq, hv, aid, hread, hplace⟩
      · rcases flowSourceStep_batch_mem r position minw x q v h2 with h3 | ⟨hmin, hq, hv, aid, hread, hplace⟩
        · exact Or.inl h3
        · exact Or.inr ⟨x, List.mem_cons_self x xs, hmin, hq, hv, aid, hread, hplace⟩
      · rw [flowSourceStep_world] at hread
        exact Or.inr ⟨dw, List.mem_cons_of_mem x hdw, hmin, hq, hv, aid, hread, hplace⟩

/-- C7: a source spreads horizontally only into directions whose flow weight
(0 when the adjacent cell has solid support below, otherwise the bounded-BFS
distance of `find_path_downward`, otherwise the `DEFAULT_FLOW_WEIGHT`
sentinel, as computed by `calculate_flow_weights`) equals the minimum over the
four horizontal directions, always writing the level-7 state; and when the
minimum equals the sentinel, no horizontal spread (no effect at all) is
produced. -/
theorem C7_source_spread_minimum_weight :
    (∀ (w : FluidWorld) (m : FluidManager) (p q : BlockPos) (v : Nat),
       Ev.writeBatch q v ∈ (try_flow_source_horizontally ⟨w, m, []⟩ p).events →
       ∃ dw, dw ∈ calculate_flow_weights w p ∧
         dw.2 = minFlowWeight (calculate_flow_weights w p) ∧
         q = offsetPos p dw.1 ∧ v = WATER_LEVEL_7_STATE_ID) ∧
    (∀ (w : FluidWorld) (m : FluidManager) (p : BlockPos),
       minFlowWeight (calculate_flow_weights w p) = DEFAULT_FLOW_WEIGHT →
       (try_flow_source_horizontally ⟨w, m, []⟩ p).events = []) := by
  constructor
  · intro w m p q v h
    unfold try_flow_source_horizontally at h
    by_cases hmin : minFlowWeight (calculate_flow_weights w p) = DEFAULT_FLOW_WEIGHT
    · rw [if_pos hmin] at h
      exact absurd h (by simp)
    · rw [if_neg hmin] at h
      rcases foldl_flowSourceStep_batch_mem p
          (minFlowWeight (calculate_flow_weights w p)) q v
          (calculate_flow_weights w p) ⟨w, m, []⟩ h with h2 | ⟨dw, hdw, hmin2, hq, hv, -⟩
      · exact absurd h2 (by simp)
      · exact ⟨dw, hdw, hmin2, hq, hv⟩
  · intro w m p hmin
    unfold try_flow_source_horizontally
    rw [if_pos hmin]

/-- Witness for C7 at concrete inputs: in `flowWeightWorld` the single batched
spread write hits a minimum-weight direction with the level-7 state; in
`allSolidWorld` the minimum weight is the sentinel and the source produces no
effect at all. -/
theorem C7_source_spread_minimum_weight_witness :
    (∃ dw, dw ∈ calculate_flow_weights flowWeightWorld ⟨0, 0, 0⟩ ∧
       dw.2 = minFlowWeight (calculate_flow_weights flowWeightWorld ⟨0, 0, 0⟩) ∧
       (⟨1, 0, 0⟩ : BlockPos) = offsetPos ⟨0, 0, 0⟩ dw.1 ∧
       87 = WATER_LEVEL_7_STATE_ID) ∧
    (try_flow_source_horizontally ⟨allSolidWorld, ⟨[], 0, []⟩, []⟩ ⟨0, 0, 0⟩).events = [] :=
  ⟨C7_source_spread_minimum_weight.1 flowWeightWorld ⟨[], 0, []⟩ ⟨0, 0, 0⟩ ⟨1, 0, 0⟩ 87
     (by decide),
   C7_source_spread_minimum_weight.2 allSolidWorld ⟨[], 0, []⟩ ⟨0, 0, 0⟩ (by decide)⟩

/-- If one step never introduces event `e`, neither does folding it. -/
theorem foldl_events_mono {α : Type} (step : Res → α → Res) (e : Ev)
    (hstep : ∀ (r : Res) (x : α), e ∈ (step r x).events → e ∈ r.events) :
    ∀ (l : List α) (r : Res), e ∈ (l.foldl step r).events → e ∈ r.events := by
  intro l
  induction l with
  | nil => intro r h; exact h
  | cons x xs ih => intro r h; exact hstep r x (ih (step r x) h)

/-- Every state id the code classifies as water is one of the eight constants. -/
theorem is_water_cases (s : Nat) (h : is_water s = true) :
    s = 86 ∨ s = 87 ∨ s = 88 ∨ s = 89 ∨ s = 90 ∨ s = 91 ∨ s = 92 ∨ s = 93 := by
  simp only [is_water, WATER_SOURCE_STATE_ID, WATER_LEVEL_1_STATE_ID,
    WATER_LEVEL_2_STATE_ID, WATER_LEVEL_3_STATE_ID, WATER_LEVEL_4_STATE_ID,
    WATER_LEVEL_5_STATE_ID, WATER_LEVEL_6_STATE_ID, WATER_LEVEL_7_STATE_ID,
    Bool.or_eq_true, decide_eq_true_eq] at h
  tauto

/-- Non-source water has level at most 7. -/
theorem water_level_le_seven (e : Nat) (hw : is_water e = true)
    (hs : is_source_block e = false) : get_water_level e ≤ 7 := by
  rcases is_water_cases e hw with h | h | h | h | h | h | h | h <;> subst h
  · exact absurd hs (by decide)
  all_goals decide

/-- The level-to-id-to-level round trip is the identity on levels 1..8. -/
theorem get_water_level_state_id (level : Int) (h1 : 1 ≤ level) (h2 : level ≤ 8) :
    get_water_level (get_state_id_for_level level) = level := by
  interval_cases level <;> decide

/-- The `should_flow` guard lets existing water through only when it is
non-source and of level strictly below the level about to be written. -/
theorem shouldFlowInto_water (w : FluidWorld) (p : BlockPos) (next_level : Int)
    (aid : Nat) (h : shouldFlowInto w p next_level = true)
    (hread : w.stateId p = some aid) (hw : is_water aid = true) :
    is_source_block aid = false ∧ get_water_level aid < next_level := by
  simp only [shouldFlowInto, hread] at h
  by_cases hs : is_source_block aid = true
  · rw [if_pos hs] at h
    cases h
  · rw [if_neg hs, if_pos hw] at h
    exact ⟨by simpa using hs, of_decide_eq_true h⟩

/-- The neighbor recheck loop only schedules; it never adds a batched write. -/
theorem horizNeighborCheck_no_batch (adjacent_pos : BlockPos) (d : BlockDirection)
    (q : BlockPos) (v : Nat) (r : Res) (nd : BlockDirection)
    (h : Ev.writeBatch q v ∈ (horizNeighborCheck adjacent_pos d r nd).events) :
    Ev.writeBatch q v ∈ r.events := by
  simp only [horizNeighborCheck] at h
  split at h
  · split at h
    · split at h
      · simp only [emitSched_events, List.mem_append, List.mem_singleton] at h
        rcases h with h | h
        · exact h
        · exact Ev.noConfusion h
      · exact h
    · exact h
  · exact h

/-- The neighbor recheck loop never writes to the world immediately either. -/
theorem horizNeighborCheck_no_now (adjacent_pos : BlockPos) (d : BlockDirection)
    (q : BlockPos) (v : Nat) (r : Res) (nd : BlockDirection)
    (h : Ev.writeNow q v ∈ (horizNeighborCheck adjacent_pos d r nd).events) :
    Ev.writeNow q v ∈ r.events := by
  simp only [horizNeighborCheck] at h
  split at h
  · split at h
    · split at h
      · simp only [emitSched_events, List.mem_append, List.mem_singleton] at h
        rcases h with h | h
        · exact h
        · exact Ev.noConfusion h
      · exact h
    · exact h
  · exact h

/-- The neighbor recheck loop leaves the world untouched. -/
theorem horizNeighborCheck_world (adjacent_pos : BlockPos) (d : BlockDirection)
    (r : Res) (nd : BlockDirection) :
    (horizNeighborCheck adjacent_pos d r nd).world = r.world := by
  simp only [horizNeighborCheck]
  repeat' split
  all_goals rfl

/-- If one step never changes the world, neither does folding it. -/
theorem foldl_world_eq {α : Type} (step : Res → α → Res)
    (hstep : ∀ (r : Res) (x : α), (step r x).world = r.world) :
    ∀ (l : List α) (r : Res), (l.foldl step r).world = r.world := by
  intro l
  induction l with
  | nil => intro r; rfl
  | cons x xs ih => intro r; rw [List.foldl_cons, ih, hstep]

/-- Fact: `flowHorizStep` leaves the world untouched. -/
theorem flowHorizStep_world (r : Res) (position : BlockPos) (current_level : Int)
    (d : BlockDirection) : (flowHorizStep r position current_level d).world = r.world := by
  simp only [flowHorizStep]
  split
  · rw [foldl_world_eq (horizNeighborCheck (offsetPos position d) d)
      (horizNeighborCheck_world (offsetPos position d) d)]
    split <;> rfl
  · rfl

/-- Any batched write newly produced by `flowHorizStep` targets the step's own
direction, writes the level decremented by one, and passed the `should_flow`
guard against the step's world. -/
theorem flowHorizStep_batch_mem (r : Res) (position : BlockPos) (current_level : Int)
    (d : BlockDirection) (q : BlockPos) (v : Nat)
    (h : Ev.writeBatch q v ∈ (flowHorizStep r position current_level d).events) :
    Ev.writeBatch q v ∈ r.events ∨
      (q = offsetPos position d ∧ v = get_state_id_for_level (current_level - 1) ∧
       shouldFlowInto r.world (offsetPos position d) (current_level - 1) = true) := by
  simp only [flowHorizStep] at h
  split at h
  · rename_i hsf
    have h2 := foldl_events_mono (horizNeighborCheck (offsetPos position d) d)
      (Ev.writeBatch q v) (horizNeighborCheck_no_batch (offsetPos position d) d q v)
      horizontalDirections _ h
    split at h2
    · simp only [emitSched_events, emitBatch_events, List.mem_append,
        List.mem_singleton] at h2
      rcases h2 with ((h2 | h2) | h2) | h2
      · exact Or.inl h2
      · injection h2 with h1 h2'
        exact Or.inr ⟨h1, h2', hsf⟩
      · exact Ev.noConfusion h2
      · exact Ev.noConfusion h2
    · simp only [emitSched_events, emitBatch_events, List.mem_append,
        List.mem_singleton] at h2
      rcases h2 with (h2 | h2) | h2
      · exact Or.inl h2
      · injection h2 with h1 h2'
        exact Or.inr ⟨h1, h2', hsf⟩
      · exact Ev.noConfusion h2
  · exact Or.inl h

/-- Folding `flowHorizStep` over a direction list: every new batched write
comes from a direction of the list, writes the decremented level and passed
the `should_flow` guard against the initial world. -/
theorem foldl_flowHorizStep_batch_mem (position : BlockPos) (current_level : Int)
    (q : BlockPos) (v : Nat) :
    ∀ (l : List BlockDirection) (r : Res),
      Ev.writeBatch q v ∈
        (l.foldl (fun r d => flowHorizStep r position current_level d) r).events →
      Ev.writeBatch q v ∈ r.events ∨
        ∃ d, d ∈ l ∧ q = offsetPos position d ∧
          v = get_state_id_for_level (current_level - 1) ∧
          shouldFlowInto r.world (offsetPos position d) (current_level - 1) = true := by
  intro l
  induction l with
  | nil => intro r h; exact Or.inl h
  | cons x xs ih =>
      intro r h
      simp only [List.foldl_cons] at h
      rcases ih (flowHorizStep r position current_level x) h with h2 | ⟨d, hd, hq, hv, hsf⟩
      · rcases flowHorizStep_batch_mem r position current_level x q v h2 with h3 | ⟨hq, hv, hsf⟩
        · exact Or.inl h3
        · exact Or.inr ⟨x, List.mem_cons_self x xs, hq, hv, hsf⟩
      · rw [flowHorizStep_world] at hsf
        exact Or.inr ⟨d, List.mem_cons_of_mem x hd, hq, hv, hsf⟩

/-- Any batched write newly produced by `try_flow_downward` targets the cell
below, writes level 7, and that cell held air or non-source water. -/
theorem try_flow_downward_batch_mem (r : Res) (position : BlockPos)
    (q : BlockPos) (v : Nat)
    (h : Ev.writeBatch q v ∈ (try_flow_downward r position).events) :
    Ev.writeBatch q v ∈ r.events ∨
      (q = offsetPos position BlockDirection.Down ∧ v = WATER_LEVEL_7_STATE_ID ∧
       ∃ bid, r.world.stateId (offsetPos position BlockDirection.Down) = some bid ∧
         (bid = 0 ∨ (is_water bid = true ∧ is_source_block bid = false))) := by
  simp only [try_flow_downward] at h
  split at h
  · rename_i bid hread
    split at h
    · rename_i hguard
      simp only [emitSched_events, emitBatch_events, List.mem_append,
        List.mem_singleton] at h
      rcases h with (h | h) | h
      · exact Or.inl h
      · injection h with h1 h2
        exact Or.inr ⟨h1, h2, bid, hread, hguard⟩
      · exact Ev.noConfusion h
    · exact Or.inl h
  · exact Or.inl h

/-- Fact: `try_flow_downward` never writes to the world immediately. -/
theorem try_flow_downward_no_now (r : Res) (position : BlockPos)
    (q : BlockPos) (v : Nat)
    (h : Ev.writeNow q v ∈ (try_flow_downward r position).events) :
    Ev.writeNow q v ∈ r.events := by
  simp only [try_flow_downward] at h
  split at h
  · split at h
    · simp only [emitSched_events, emitBatch_events, List.mem_append,
        List.mem_singleton] at h
      rcases h with (h | h) | h
      · exact h
      · exact Ev.noConfusion h
      · exact Ev.noConfusion h
    · exact h
  · exact h

/-- Fact: `try_flow_downward` leaves the world untouched. -/
theorem try_flow_downward_world (r : Res) (position : BlockPos) :
    (try_flow_downward r position).world = r.world := by
  simp only [try_flow_downward]
  repeat' split
  all_goals rfl

/-- Any immediate write newly produced by `waterfallStep` targets the step's
own (horizontal) direction, writes the level decremented by one, and both the
target and the cell below it were passable in the step's world. -/
theorem waterfallStep_now_mem (r : Res) (position : BlockPos) (level : Int)
    (d : BlockDirection) (q : BlockPos) (v : Nat)
    (h : Ev.writeNow q v ∈ (waterfallStep r position level d).events) :
    Ev.writeNow q v ∈ r.events ∨
      (q = offsetPos position d ∧ v = get_state_id_for_level (level - 1) ∧
       passableAt r.world (offsetPos position d) = true ∧
       passableAt r.world (offsetPos (offsetPos position d) BlockDirection.Down) = true) := by
  simp only [waterfallStep] at h
  split at h
  · rename_i hg
    simp only [emitSched_events, emitNow_events, List.mem_append,
      List.mem_singleton] at h
    rcases h with ((h | h) | h) | h
    · exact Or.inl h
    · injection h with h1 h2
      exact Or.inr ⟨h1, h2, hg.1, hg.2⟩
    · exact Ev.noConfusion h
    · exact Ev.noConfusion h
  · exact Or.inl h

/-- The world after `waterfallStep`: unchanged, or updated at the step's own
side cell with the decremented level. -/
theorem waterfallStep_world_cases (r : Res) (position : BlockPos) (level : Int)
    (d : BlockDirection) :
    (waterfallStep r position level d).world = r.world ∨
    (waterfallStep r position level d).world =
      setBlockState r.world (offsetPos position d) (get_state_id_for_level (level - 1)) := by
  simp only [waterfallStep]
  split
  · exact Or.inr rfl
  · exact Or.inl rfl

/-- C4 (amended): each spread write, at the moment it is issued and against
the world state its guard read, never targets a source and never targets
fluid of strictly greater level than it writes: this holds unconditionally
for the batched spread writes of `try_flow_source_horizontally`,
`try_flow_horizontally` and `try_flow_downward`; the immediate waterfall
write checks only passability, so it targets no existing fluid at all
provided the registry marks no water state as air or replaceable. -/
theorem C4_spread_write_no_downgrade :
    (∀ (w : FluidWorld) (m : FluidManager) (p q : BlockPos) (v e : Nat),
       Ev.writeBatch q v ∈ (try_flow_source_horizontally ⟨w, m, []⟩ p).events →
       w.stateId q = some e → is_water e = true →
       is_source_block e = false ∧ get_water_level e ≤ get_water_level v) ∧
    (∀ (w : FluidWorld) (m : FluidManager) (p q : BlockPos) (lvl : Int) (v e : Nat),
       lvl ≤ 8 →
       Ev.writeBatch q v ∈ (try_flow_horizontally ⟨w, m, []⟩ p lvl).events →
       w.stateId q = some e → is_water e = true →
       is_source_block e = false ∧ get_water_level e ≤ get_water_level v) ∧
    (∀ (w : FluidWorld) (m : FluidManager) (p q : BlockPos) (v e : Nat),
       Ev.writeBatch q v ∈ (try_flow_downward ⟨w, m, []⟩ p).events →
       w.stateId q = some e → is_water e = true →
       is_source_block e = false ∧ get_water_level e ≤ get_water_level v) ∧
    (∀ (w : FluidWorld) (m : FluidManager) (p q : BlockPos) (lvl : Int)
       (d : BlockDirection) (v e : Nat),
       (∀ s, is_water s = true → w.airFlag s = false ∧ w.replFlag s = false) →
       Ev.writeNow q v ∈ (waterfallStep ⟨w, m, []⟩ p lvl d).events →
       w.stateId q = some e → is_water e = false) := by
  refine ⟨?_, ?_, ?_, ?_⟩
  · intro w m p q v e h hread hwat
    unfold try_flow_source_horizontally at h
    by_cases hmin : minFlowWeight (calculate_flow_weights w p) = DEFAULT_FLOW_WEIGHT
    · rw [if_pos hmin] at h
      exact absurd h (by simp)
    · rw [if_neg hmin] at h
      rcases foldl_flowSourceStep_batch_mem p
          (minFlowWeight (calculate_flow_weights w p)) q v
          (calculate_flow_weights w p) ⟨w, m, []⟩ h with
        h2 | ⟨dw, hdw, hmin2, hq, hv, aid, hread2, hplace⟩
      · exact absurd h2 (by simp)
      · subst hq
        rw [hread] at hread2
        injection hread2 with he
        obtain ⟨hs, hlt⟩ := hplace (he ▸ hwat)
        subst hv
        refine ⟨he ▸ hs, ?_⟩
        have h7 : get_water_level WATER_LEVEL_7_STATE_ID = 7 := by decide
        rw [h7, he]
        omega
  · intro w m p q lvl v e hle8 h hread hwat
    unfold try_flow_horizontally at h
    by_cases hlvl1 : lvl ≤ 1
    · rw [if_pos hlvl1] at h
      exact absurd h (by simp)
    · rw [if_neg hlvl1] at h
      rcases foldl_flowHorizStep_batch_mem p lvl q v horizontalDirections
          ⟨w, m, []⟩ h with h2 | ⟨d, hd, hq, hv, hsf⟩
      · exact absurd h2 (by simp)
      · subst hq
        obtain ⟨hs, hlt⟩ := shouldFlowInto_water w _ (lvl - 1) e hsf hread hwat
        subst hv
        refine ⟨hs, ?_⟩
        rw [get_water_level_state_id (lvl - 1) (by omega) (by omega)]
        omega
  · intro w m p q v e h hread hwat
    rcases try_flow_downward_batch_mem ⟨w, m, []⟩ p q v h with
      h2 | ⟨hq, hv, bid, hread2, hguard⟩
    · exact absurd h2 (by simp)
    · subst hq
      rw [hread] at hread2
      injection hread2 with he
      subst hv
      rcases hguard with h0 | ⟨hbw, hbs⟩
      · rw [he, h0] at hwat
        exact absurd hwat (by decide)
      · have h7 : get_water_level WATER_LEVEL_7_STATE_ID = 7 := by decide
        rw [h7, he]
        exact ⟨he ▸ hbs, water_level_le_seven bid hbw hbs⟩
  · intro w m p q lvl d v e hreg h hread
    rcases waterfallStep_now_mem ⟨w, m, []⟩ p lvl d q v h with
      h2 | ⟨hq, hv, hpass, hpassb⟩
    · exact absurd h2 (by simp)
    · subst hq
      by_cases hw : is_water e = true
      · obtain ⟨ha, hr⟩ := hreg e hw
        simp only [passableAt, hread, ha, hr] at hpass
        exact absurd hpass (by decide)
      · simpa using hw

/-- C4 counterexample: resolving the level-3 flowing cell takes the waterfall
branch toward the east neighbor — a source cell with a replaceable block
state over air — and immediately overwrites that source with level-2 flowing
water (fluid.rs line 386 checks only air/replaceable, not whether the side
cell already holds water). So an immediate spread write of the flow resolver
does replace a source cell. -/
theorem C4_spread_write_counterexample :
    Ev.writeNow ⟨1, 0, 0⟩ 92 ∈
      (process_fluid_update 100 waterfallOverwriteWorld ⟨[], 0, []⟩
        ⟨⟨0, 0, 0⟩, 91, 0, 1⟩).events ∧
    waterfallOverwriteWorld.stateId ⟨1, 0, 0⟩ = some 86 ∧
    is_source_block 86 = true ∧ get_water_level 86 = 8 ∧ get_water_level 92 = 2 ∧
    (process_fluid_update 100 waterfallOverwriteWorld ⟨[], 0, []⟩
        ⟨⟨0, 0, 0⟩, 91, 0, 1⟩).world.stateId ⟨1, 0, 0⟩ = some 92 := by
  decide

/-- Witness for the amended C4 at concrete inputs: a source-spread write onto
level-1 water, a horizontal-spread write onto level-1 water, a downward write
onto level-1 water — each non-source and not above the written level — and a
waterfall write onto a cell that holds no water. -/
theorem C4_spread_write_no_downgrade_witness :
    (is_source_block 93 = false ∧ get_water_level 93 ≤ get_water_level 87) ∧
    (is_source_block 93 = false ∧ get_water_level 93 ≤ get_water_level 92) ∧
    (is_source_block 93 = false ∧ get_water_level 93 ≤ get_water_level 87) ∧
    is_water 0 = false :=
  ⟨C4_spread_write_no_downgrade.1 sourceSpreadWorld ⟨[], 0, []⟩ ⟨0, 0, 0⟩ ⟨1, 0, 0⟩
     87 93 (by decide) (by decide) (by decide),
   C4_spread_write_no_downgrade.2.1 waterNeighborWorld ⟨[], 0, []⟩ ⟨0, 0, 0⟩ ⟨1, 0, 0⟩
     3 92 93 (by decide) (by decide) (by decide) (by decide),
   C4_spread_write_no_downgrade.2.2.1 waterNeighborWorld ⟨[], 0, []⟩ ⟨0, 0, 0⟩
     ⟨0, -1, 0⟩ 87 93 (by decide) (by decide) (by decide),
   C4_spread_write_no_downgrade.2.2.2 waterfallAirWorld ⟨[], 0, []⟩ ⟨0, 0, 0⟩
     ⟨1, 0, 0⟩ 3 BlockDirection.East 92 0
     (by intro s hs
         rcases is_water_cases s hs with h | h | h | h | h | h | h | h <;> subst h <;>
           exact ⟨by decide, by decide⟩)
     (by decide) (by decide)⟩

/-- C3 (amended): resolving a drained update whose recorded state id no longer
matches the cell's current state id is a no-op — world, manager and trace all
unchanged — whenever the current state is not air (including when the read
fails); when the current state is air (state id 0) the air-cell rules run
instead, regardless of the recorded id. -/
theorem C3_stale_update_amended :
    ∀ (fuel : Nat) (w : FluidWorld) (m : FluidManager) (update : FluidUpdate),
      (w.stateId update.position = none →
        process_fluid_update fuel w m update = ⟨w, m, []⟩) ∧
      (∀ cid, w.stateId update.position = some cid → cid ≠ 0 →
        cid ≠ update.fluid_state_id →
        process_fluid_update fuel w m update = ⟨w, m, []⟩) := by
  intro fuel w m update
  constructor
  · intro h
    simp only [process_fluid_update, h]
  · intro cid hread h0 hne
    simp only [process_fluid_update, hread]
    rw [if_neg h0, if_pos hne]

/-- Witness for the amended C3 at concrete inputs: a failed read and a
stale non-air mismatch (solid cell, recorded water id) are both no-ops. -/
theorem C3_stale_update_amended_witness :
    process_fluid_update 100 voidWorld ⟨[], 0, []⟩ ⟨⟨0, 0, 0⟩, 93, 0, 1⟩ =
      ⟨voidWorld, ⟨[], 0, []⟩, []⟩ ∧
    process_fluid_update 100 allSolidWorld ⟨[], 0, []⟩ ⟨⟨0, 0, 0⟩, 93, 0, 1⟩ =
      ⟨allSolidWorld, ⟨[], 0, []⟩, []⟩ :=
  ⟨(C3_stale_update_amended 100 voidWorld ⟨[], 0, []⟩ ⟨⟨0, 0, 0⟩, 93, 0, 1⟩).1 rfl,
   (C3_stale_update_amended 100 allSolidWorld ⟨[], 0, []⟩ ⟨⟨0, 0, 0⟩, 93, 0, 1⟩).2 5
     rfl (by decide) (by decide)⟩

/-- C3 counterexample: a drained update recorded state id 90 (level-4 water)
for the origin, but the origin is now air (state id 0, no longer fluid) — a
mismatch the claim says is a no-op. The code instead runs the air-cell rules
before the staleness check (fluid.rs line 248 versus line 275): it
immediately writes level-7 water into the cell and creates a new scheduled
update for it. -/
theorem C3_stale_update_counterexample :
    (process_fluid_update 100 staleAirWorld ⟨[], 0, []⟩
        ⟨⟨0, 0, 0⟩, 90, 0, 1⟩).events =
      [Ev.writeNow ⟨0, 0, 0⟩ 87, Ev.sched ⟨0, 0, 0⟩ 87 0 1] ∧
    staleAirWorld.stateId ⟨0, 0, 0⟩ = some 0 ∧ (0 : Nat) ≠ 90 ∧ is_water 0 = false ∧
    (process_fluid_update 100 staleAirWorld ⟨[], 0, []⟩
        ⟨⟨0, 0, 0⟩, 90, 0, 1⟩).world.stateId ⟨0, 0, 0⟩ = some 87 ∧
    lookupPos (process_fluid_update 100 staleAirWorld ⟨[], 0, []⟩
        ⟨⟨0, 0, 0⟩, 90, 0, 1⟩).mgr.pending ⟨0, 0, 0⟩ = some ⟨⟨0, 0, 0⟩, 87, 5, 1⟩ := by
  decide

/-- Fact: `flowSourceStep` never writes to the world immediately. -/
theorem flowSourceStep_no_now (r : Res) (position : BlockPos) (minw : Int)
    (dw : BlockDirection × Int) (q : BlockPos) (v : Nat)
    (h : Ev.writeNow q v ∈ (flowSourceStep r position minw dw).events) :
    Ev.writeNow q v ∈ r.events := by
  simp only [flowSourceStep] at h
  split at h
  · split at h
    · exact h
    · split at h
      · split at h
        · split at h
          · simp only [emitSched_events, emitBatch_events, List.mem_append,
              List.mem_singleton] at h
            rcases h with (h | h) | h
            · exact h
            · exact Ev.noConfusion h
            · exact Ev.noConfusion h
          · simp only [emitSched_events, emitBatch_events, List.mem_append,
              List.mem_singleton] at h
            rcases h with ((h | h) | h) | h
            · exact h
            · exact Ev.noConfusion h
            · exact Ev.noConfusion h
            · exact Ev.noConfusion h
        · exact h
      · exact h
  · exact h

/-- Fact: `try_flow_source_horizontally` never writes to the world immediately. -/
theorem try_flow_source_horizontally_no_now (r : Res) (position : BlockPos)
    (q : BlockPos) (v : Nat)
    (h : Ev.writeNow q v ∈ (try_flow_source_horizontally r position).events) :
    Ev.writeNow q v ∈ r.events := by
  simp only [try_flow_source_horizontally] at h
  split at h
  · exact h
  · exact foldl_events_mono _ (Ev.writeNow q v)
      (fun r' dw hx => flowSourceStep_no_now r' position
        (minFlowWeight (calculate_flow_weights r.world position)) dw q v hx)
      (calculate_flow_weights r.world position) r h

/-- Fact: `flowHorizStep` never writes to the world immediately. -/
theorem flowHorizStep_no_now (r : Res) (position : BlockPos) (current_level : Int)
    (d : BlockDirection) (q : BlockPos) (v : Nat)
    (h : Ev.writeNow q v ∈ (flowHorizStep r position current_level d).events) :
    Ev.writeNow q v ∈ r.events := by
  simp only [flowHorizStep] at h
  split at h
  · have h2 := foldl_events_mono (horizNeighborCheck (offsetPos position d) d)
      (Ev.writeNow q v) (horizNeighborCheck_no_now (offsetPos position d) d q v)
      horizontalDirections _ h
    split at h2
    · simp only [emitSched_events, emitBatch_events, List.mem_append,
        List.mem_singleton] at h2
      rcases h2 with ((h2 | h2) | h2) | h2
      · exact h2
      · exact Ev.noConfusion h2
      · exact Ev.noConfusion h2
      · exact Ev.noConfusion h2
    · simp only [emitSched_events, emitBatch_events, List.mem_append,
        List.mem_singleton] at h2
      rcases h2 with (h2 | h2) | h2
      · exact h2
      · exact Ev.noConfusion h2
      · exact Ev.noConfusion h2
  · exact h

/-- Fact: `try_flow_horizontally` never writes to the world immediately. -/
theorem try_flow_horizontally_no_now (r : Res) (position : BlockPos)
    (current_level : Int) (q : BlockPos) (v : Nat)
    (h : Ev.writeNow q v ∈ (try_flow_horizontally r position current_level).events) :
    Ev.writeNow q v ∈ r.events := by
  simp only [try_flow_horizontally] at h
  split at h
  · exact h
  · exact foldl_events_mono _ (Ev.writeNow q v)
      (fun r' d hx => flowHorizStep_no_now r' position current_level d q v hx)
      horizontalDirections r h

/-- Fact: `try_flow_horizontally` leaves the world untouched. -/
theorem try_flow_horizontally_world (r : Res) (position : BlockPos)
    (current_level : Int) :
    (try_flow_horizontally r position current_level).world = r.world := by
  simp only [try_flow_horizontally]
  split
  · rfl
  · exact foldl_world_eq _ (fun r' d => flowHorizStep_world r' position current_level d)
      horizontalDirections r

/-- Fact: `start_water_receding` only schedules; it never writes to the world
immediately. -/
theorem start_water_receding_no_now (r : Res) (position : BlockPos) (level : Int)
    (q : BlockPos) (v : Nat)
    (h : Ev.writeNow q v ∈ (start_water_receding r position level).events) :
    Ev.writeNow q v ∈ r.events := by
  simp only [start_water_receding] at h
  simp only [emitSched_events, List.mem_append, List.mem_singleton] at h
  rcases h with h | h
  · exact foldl_events_mono _ (Ev.writeNow q v)
      (fun r' ip hx => by
        simp only [emitSched_events, List.mem_append, List.mem_singleton] at hx
        rcases hx with hx | hx
        · exact hx
        · exact Ev.noConfusion hx)
      _ r h
  · exact Ev.noConfusion h

/-- Fact: `vanishNeighborSched` never writes to the world immediately. -/
theorem vanishNeighborSched_no_now (w : FluidWorld) (position : BlockPos)
    (r : Res) (d : BlockDirection) (q : BlockPos) (v : Nat)
    (h : Ev.writeNow q v ∈ (vanishNeighborSched w position r d).events) :
    Ev.writeNow q v ∈ r.events := by
  simp only [vanishNeighborSched] at h
  split at h
  · split at h
    · simp only [emitSched_events, List.mem_append, List.mem_singleton] at h
      rcases h with h | h
      · exact h
      · exact Ev.noConfusion h
    · exact h
  · exact h

/-- Fact: `setBlockState` changes nothing at other positions. -/
theorem setBlockState_stateId_ne (w : FluidWorld) (p s : _) (q : BlockPos)
    (h : q ≠ p) : (setBlockState w p s).stateId q = w.stateId q := by
  simp [setBlockState, if_neg h]

/-- Fact: `setBlockState` leaves the registry flags alone. -/
theorem setBlockState_flags (w : FluidWorld) (p : BlockPos) (s : Nat) :
    (setBlockState w p s).airFlag = w.airFlag ∧
    (setBlockState w p s).replFlag = w.replFlag := ⟨rfl, rfl⟩

/-- A horizontal offset keeps the y coordinate. -/
theorem offsetPos_horizontal_y (p : BlockPos) (d : BlockDirection)
    (hd : d ∈ horizontalDirections) : (offsetPos p d).y = p.y := by
  fin_cases hd <;> rfl

/-- Passability only depends on the state at the position and the registry. -/
theorem passableAt_congr (w1 w2 : FluidWorld) (p : BlockPos)
    (hs : w1.stateId p = w2.stateId p) (ha : w1.airFlag = w2.airFlag)
    (hr : w1.replFlag = w2.replFlag) : passableAt w1 p = passableAt w2 p := by
  unfold passableAt
  rw [hs, ha, hr]

/-- Folding `waterfallStep` over horizontal directions: the world changes only
on the plane of the updated cell, and every new immediate write targets a
horizontal neighbor with the decremented level and had passable space below
it in the world the whole update started from. -/
theorem foldl_waterfallStep_now_mem (position : BlockPos) (level : Int)
    (q : BlockPos) (v : Nat) (w0 : FluidWorld) :
    ∀ (l : List BlockDirection), (∀ d, d ∈ l → d ∈ horizontalDirections) →
    ∀ (r : Res),
      (∀ pos : BlockPos, pos.y ≠ position.y → r.world.stateId pos = w0.stateId pos) →
      r.world.airFlag = w0.airFlag → r.world.replFlag = w0.replFlag →
      Ev.writeNow q v ∈
        (l.foldl (fun r d => waterfallStep r position level d) r).events →
      Ev.writeNow q v ∈ r.events ∨
        ∃ d, d ∈ l ∧ q = offsetPos position d ∧
          v = get_state_id_for_level (level - 1) ∧
          passableAt w0 (offsetPos (offsetPos position d) BlockDirection.Down) = true := by
  intro l
  induction l with
  | nil => intro _ r _ _ _ h; exact Or.inl h
  | cons x xs ih =>
      intro hl r hinv ha hr h
      simp only [List.foldl_cons] at h
      have hinv2 : ∀ pos : BlockPos, pos.y ≠ position.y →
          (waterfallStep r position level x).world.stateId pos = w0.stateId pos := by
        intro pos hy
        rcases waterfallStep_world_cases r position level x with hw | hw
        · rw [hw]; exact hinv pos hy
        · rw [hw, setBlockState_stateId_ne]
          · exact hinv pos hy
          · intro hc
            apply hy
            rw [hc, offsetPos_horizontal_y position x (hl x (List.mem_cons_self x xs))]
      have ha2 : (waterfallStep r position level x).world.airFlag = w0.airFlag := by
        rcases waterfallStep_world_cases r position level x with hw | hw <;>
          rw [hw] <;> exact ha
      have hr2 : (waterfallStep r position level x).world.replFlag = w0.replFlag := by
        rcases waterfallStep_world_cases r position level x with hw | hw <;>
          rw [hw] <;> exact hr
      rcases ih (fun d hd => hl d (List.mem_cons_of_mem x hd))
          (waterfallStep r position level x) hinv2 ha2 hr2 h with h2 | ⟨d, hd, hq, hv, hp⟩
      · rcases waterfallStep_now_mem r position level x q v h2 with h3 | ⟨hq, hv, -, hpb⟩
        · exact Or.inl h3
        · refine Or.inr ⟨x, List.mem_cons_self x xs, hq, hv, ?_⟩
          have hyy : (offsetPos (offsetPos position x) BlockDirection.Down).y ≠ position.y := by
            have hxy := offsetPos_horizontal_y position x (hl x (List.mem_cons_self x xs))
            show (offsetPos position x).y - 1 ≠ position.y
            omega
          rw [← passableAt_congr r.world w0 _ (hinv _ hyy) ha hr]
          exact hpb
      · exact Or.inr ⟨d, List.mem_cons_of_mem x hd, hq, hv, hp⟩

/-- The reschedule-above/below pattern of the decay branch only schedules. -/
theorem schedIfWater_no_now (w : FluidWorld) (pos : BlockPos) (r : Res)
    (q : BlockPos) (v : Nat)
    (h : Ev.writeNow q v ∈
      (match w.stateId pos with
       | some a =>
           if is_water a ∧ is_source_block a = false then emitSched r pos a 0 3
           else r
       | none => r).events) :
    Ev.writeNow q v ∈ r.events := by
  split at h
  · split at h
    · simp only [emitSched_events, List.mem_append, List.mem_singleton] at h
      rcases h with h | h
      · exact h
      · exact Ev.noConfusion h
    · exact h
  · exact h

/-- C2 (amended): every immediate (non-batched) world write performed while
resolving a single update is either an air-cell-resolution write (the cell
under the update read as state 0) or a waterfall write: the resolved cell is
flowing water of level above 1 matching the recorded id, the write targets a
horizontal neighbor with the level decremented by one, and the cell below the
target was passable in the world the resolution started from. All other
writes go through the batch buffer, which `tick` flushes only after every due
update has been resolved. -/
theorem C2_immediate_write_amended :
    ∀ (fuel : Nat) (w : FluidWorld) (m : FluidManager) (update : FluidUpdate)
      (q : BlockPos) (v : Nat),
      Ev.writeNow q v ∈ (process_fluid_update fuel w m update).events →
      w.stateId update.position = some 0 ∨
      (∃ cid, w.stateId update.position = some cid ∧ cid = update.fluid_state_id ∧
        is_water cid = true ∧ is_source_block cid = false ∧
        1 < get_water_level cid ∧
        ∃ d, d ∈ horizontalDirections ∧ q = offsetPos update.position d ∧
          v = get_state_id_for_level (get_water_level cid - 1) ∧
          passableAt w (offsetPos (offsetPos update.position d)
            BlockDirection.Down) = true) := by
  intro fuel w m update q v h
  simp only [process_fluid_update] at h
  split at h
  · exact absurd h (by simp)
  · rename_i cid hread
    split at h
    · rename_i h0
      exact Or.inl (h0 ▸ hread)
    · split at h
      · exact absurd h (by simp)
      · rename_i hne
        split at h
        · exact absurd h (by simp)
        · rename_i hnw
          split at h
          · exact absurd (try_flow_downward_no_now _ _ q v
              (try_flow_source_horizontally_no_now _ _ q v h)) (by simp)
          · rename_i hsrc
            split at h
            · split at h
              · have h3 := schedIfWater_no_now w
                  (offsetPos update.position BlockDirection.Down) _ q v h
                have h4 := schedIfWater_no_now w
                  (offsetPos update.position BlockDirection.Up) _ q v h3
                have h5 := start_water_receding_no_now _ _ _ q v h4
                exact absurd h5 (by simp [emitBatch_events])
              · have h2 := foldl_events_mono (vanishNeighborSched w update.position)
                  (Ev.writeNow q v)
                  (fun r' d hx => vanishNeighborSched_no_now w update.position r' d q v hx)
                  allDirections _ h
                exact absurd h2 (by simp [emitBatch_events])
            · split at h
              · rename_i hlvl
                have hworld : (try_flow_horizontally
                    (try_flow_downward ⟨w, m, []⟩ update.position) update.position
                    (get_water_level cid)).world = w := by
                  rw [try_flow_horizontally_world, try_flow_downward_world]
                rcases foldl_waterfallStep_now_mem update.position (get_water_level cid)
                    q v w horizontalDirections (fun d hd => hd) _
                    (fun pos hy => by rw [hworld]) (by rw [hworld]) (by rw [hworld])
                    h with h2 | ⟨d, hd, hq, hv, hp⟩
                · exact absurd (try_flow_downward_no_now _ _ q v
                    (try_flow_horizontally_no_now _ _ _ q v h2)) (by simp)
                · exact Or.inr ⟨cid, hread, not_not.mp hne, by simpa using hnw,
                    by simpa using hsrc, hlvl, d, hd, hq, hv, hp⟩
              · exact absurd (try_flow_downward_no_now _ _ q v
                  (try_flow_horizontally_no_now _ _ _ q v h)) (by simp)

/-- Witness for the amended C2 at concrete inputs: the immediate write of an
air-cell resolution satisfies the left disjunct, and the immediate waterfall
write of a flowing-cell resolution satisfies the right disjunct. -/
theorem C2_immediate_write_amended_witness :
    (staleAirWorld.stateId ⟨0, 0, 0⟩ = some 0 ∨
      (∃ cid, staleAirWorld.stateId ⟨0, 0, 0⟩ = some cid ∧ cid = 90 ∧
        is_water cid = true ∧ is_source_block cid = false ∧
        1 < get_water_level cid ∧
        ∃ d, d ∈ horizontalDirections ∧ (⟨0, 0, 0⟩ : BlockPos) = offsetPos ⟨0, 0, 0⟩ d ∧
          87 = get_state_id_for_level (get_water_level cid - 1) ∧
          passableAt staleAirWorld (offsetPos (offsetPos ⟨0, 0, 0⟩ d)
            BlockDirection.Down) = true)) ∧
    (waterfallOverwriteWorld.stateId ⟨0, 0, 0⟩ = some 0 ∨
      (∃ cid, waterfallOverwriteWorld.stateId ⟨0, 0, 0⟩ = some cid ∧ cid = 91 ∧
        is_water cid = true ∧ is_source_block cid = false ∧
        1 < get_water_level cid ∧
        ∃ d, d ∈ horizontalDirections ∧ (⟨1, 0, 0⟩ : BlockPos) = offsetPos ⟨0, 0, 0⟩ d ∧
          92 = get_state_id_for_level (get_water_level cid - 1) ∧
          passableAt waterfallOverwriteWorld (offsetPos (offsetPos ⟨0, 0, 0⟩ d)
            BlockDirection.Down) = true)) :=
  ⟨C2_immediate_write_amended 100 staleAirWorld ⟨[], 0, []⟩ ⟨⟨0, 0, 0⟩, 90, 0, 1⟩
     ⟨0, 0, 0⟩ 87 (by decide),
   C2_immediate_write_amended 100 waterfallOverwriteWorld ⟨[], 0, []⟩
     ⟨⟨0, 0, 0⟩, 91, 0, 1⟩ ⟨1, 0, 0⟩ 92 (by decide)⟩

/-- C2 counterexample: resolving this tick's one due update (an air cell with
water above and solid ground below) writes the cell immediately — a
`writeNow` effect applied to the World during the resolution pass, before the
end-of-tick flush — and this write is not a waterfall write: the claim allows
only the explicit waterfall writes to bypass the batch, but the cell below
the written cell is solid (not passable), which no waterfall write permits
(the spec's §4.5 waterfall case requires no solid support below). -/
theorem C2_immediate_write_counterexample :
    (tick 100 staleAirWorld tickAirMgr).events =
      [Ev.writeNow ⟨0, 0, 0⟩ 87, Ev.sched ⟨0, 0, 0⟩ 87 0 1] ∧
    staleAirWorld.stateId ⟨0, 0, 0⟩ = some 0 ∧
    passableAt staleAirWorld (offsetPos ⟨0, 0, 0⟩ BlockDirection.Down) = false ∧
    (tick 100 staleAirWorld tickAirMgr).world.stateId ⟨0, 0, 0⟩ = some 87 := by
  decide

/-- C8 (amended): on a tick with due updates, the batch buffer is cleared at
the start of the processing pass (the incoming buffer content is discarded and
never observed), and the buffer is flushed to the World at the end of the
tick; but the flushed entries remain in the buffer after `tick` returns — the
buffer is emptied again only at the start of the next processing pass, and a
tick with nothing due leaves the stale buffer untouched. -/
theorem C8_batch_buffer_amended :
    (∀ (fuel : Nat) (w : FluidWorld) (m : FluidManager),
       dueOf m ≠ [] →
       tick fuel w m = tick fuel w { m with batch := [] }) ∧
    (∀ (fuel : Nat) (w : FluidWorld) (m : FluidManager),
       dueOf m ≠ [] →
       ∃ r : Res,
         r = runUpdates fuel (sortByPriorityDesc ((dueOf m).map (fun pu => pu.2)))
           ⟨w, { m with
                 current_tick := (m.current_tick + 1) % U32MOD
                 pending := m.pending.filter (fun pu =>
                   !((sortByPriorityDesc ((dueOf m).map (fun pu => pu.2))).any
                     (fun u => decide (u.position = pu.1))))
                 batch := [] }, []⟩ ∧
         tick fuel w m = ⟨applyBatch r.world r.mgr.batch, r.mgr, r.events⟩) ∧
    (∀ (fuel : Nat) (w : FluidWorld) (m : FluidManager),
       m.pending = [] →
       tick fuel w m =
         ⟨w, { m with current_tick := (m.current_tick + 1) % U32MOD }, []⟩) := by
  have hpend : ∀ m : FluidManager, dueOf m ≠ [] → m.pending ≠ [] := by
    intro m hdue hp
    apply hdue
    simp [dueOf, hp]
  refine ⟨?_, ?_, ?_⟩
  · intro fuel w m hdue
    simp only [tick]
    rw [if_neg (hpend m hdue), if_neg (hpend m hdue), if_neg hdue,
      if_neg (show dueOf { m with batch := [] } ≠ [] from hdue),
      show dueOf { m with batch := [] } = dueOf m from rfl]
  · intro fuel w m hdue
    refine ⟨_, rfl, ?_⟩
    simp only [tick]
    rw [if_neg (hpend m hdue), if_neg hdue]
  · intro fuel w m hp
    simp only [tick]
    rw [if_pos hp]

/-- C8 counterexample: processing the one due update batches a spread write
into the east cell; `tick` flushes it to the World but never empties the
buffer afterwards, so after `tick` returns — with no tick invocation in
flight — the batch buffer still contains the flushed entry, contradicting
the claim that it is empty between ticks. -/
theorem C8_batch_buffer_counterexample :
    (tick 100 flushWorld flushMgr).mgr.batch = [(⟨1, 0, 0⟩, 88)] ∧
    (tick 100 flushWorld flushMgr).world.stateId ⟨1, 0, 0⟩ = some 88 := by
  decide

/-- Witness for the amended C8 at concrete inputs: a processing tick ignores
the stale incoming buffer; the tick result is the flush of the processing
pass's own buffer, which stays in the manager; an idle tick leaves the stale
buffer untouched. -/
theorem C8_batch_buffer_amended_witness :
    tick 100 flushWorld flushMgrStale = tick 100 flushWorld { flushMgrStale with batch := [] } ∧
    (∃ r : Res,
       r = runUpdates 100 (sortByPriorityDesc ((dueOf flushMgrStale).map (fun pu => pu.2)))
         ⟨flushWorld, { flushMgrStale with
               current_tick := (flushMgrStale.current_tick + 1) % U32MOD
               pending := flushMgrStale.pending.filter (fun pu =>
                 !((sortByPriorityDesc ((dueOf flushMgrStale).map (fun pu => pu.2))).any
                   (fun u => decide (u.position = pu.1))))
               batch := [] }, []⟩ ∧
       tick 100 flushWorld flushMgrStale = ⟨applyBatch r.world r.mgr.batch, r.mgr, r.events⟩) ∧
    tick 100 flushWorld idleMgrStale =
      ⟨flushWorld, { idleMgrStale with current_tick := 11 }, []⟩ :=
  ⟨C8_batch_buffer_amended.1 100 flushWorld flushMgrStale (by decide),
   C8_batch_buffer_amended.2.1 100 flushWorld flushMgrStale (by decide),
   C8_batch_buffer_amended.2.2 100 flushWorld idleMgrStale rfl⟩
